import Mathlib

/-!
# Private asset transfer chaincode: a shallow embedding

The development embeds the chaincode of
`asset-transfer-private-data/chaincode-go` (`private_asset_transfer.go`,
`private_asset_queries.go`, and of the variant `privateAssetTransfer.go` what
differs) as Lean functions over an explicit ledger state.

* Go `string` and `[]byte` are both byte sequences and the conversions between
  them copy the content unchanged; both are modelled by `String`.
* Go `int` values are only compared with `0`; they are modelled by `Int`.
* `encoding/json` and the content hash of the ledger are libraries outside the
  repository; they are parameters of the model (`Env`), and so is the engine
  that answers rich queries (`QueryEngine`).
* The chaincode stub is a key-value store per collection.  Its calls carry the
  argument checks of the stub (`collection must not be an empty string`,
  `key must not be an empty string`, the composite-key attribute check).
* Every operation returns its Go `error` result together with the world it
  leaves behind: the ledger as modified by the writes issued so far and the
  log of those writes, in issue order.
-/

namespace PrivateAssetTransfer

/-- Raw bytes (`[]byte`). -/
abbrev Bytes := String

/-! ## Data model -/

/-- Go `type Asset struct`: the asset details visible to all organizations. -/
structure Asset where
  Type_ : String
  ID : String
  Color : String
  Size : Int
  Owner : String
  deriving DecidableEq, Repr

/-- Go `type AssetPrivateDetails struct`: details private to the owners. -/
structure AssetPrivateDetails where
  ID : String
  AppraisedValue : Int
  deriving DecidableEq, Repr

/-- Go `type assetTransientInput struct` (local to `CreateAsset`). -/
structure assetTransientInput where
  Type_ : String
  ID : String
  Color : String
  Size : Int
  AppraisedValue : Int
  deriving DecidableEq, Repr

/-- Go `type assetTransferTransientInput struct` (local to `TransferAsset`). -/
structure assetTransferTransientInput where
  ID : String
  BuyerMSP : String
  deriving DecidableEq, Repr

/-- Go `type assetDelete struct` (local to `DeleteAsset` and `DeleteProposal`). -/
structure assetDelete where
  ID : String
  deriving DecidableEq, Repr

/-- Go `const assetCollection`. -/
def assetCollection : String := "assetCollection"

/-! ## Errors -/

/-- The failure taxonomy of the specification. -/
inductive ErrKind where
  | ValidationError
  | ConflictError
  | NotFoundError
  | IdentityError
  | AuthorizationError
  | AgreementMismatchError
  | DecodeError
  | SubstrateError
  deriving DecidableEq, Repr

/-- One constructor per error site of the chaincode and of the stub. -/
inductive Err where
  /-- `GetTransient` failed. -/
  | transientUnavailable
  /-- `... not found in the transient map`. -/
  | transientKeyMissing (key : String)
  /-- `failed to unmarshal JSON: ...`. -/
  | unmarshalFailed
  /-- `... field must be a non-empty string`. -/
  | emptyField (field : String)
  /-- `... field must be a positive integer`. -/
  | notPositive (field : String)
  /-- `This asset already exists: ...`. -/
  | alreadyExists (id : String)
  /-- `failed to get verified OrgID: ...`. -/
  | identityUnavailable
  /-- `failed getting peer's orgID: ...`. -/
  | peerOrgUnavailable
  /-- `client from org ... is not authorized to read or write private data on org ... peer`. -/
  | crossOrg (clientMSPID peerOrgID : String)
  /-- `error: submitting client identity does not own asset`. -/
  | notOwner
  /-- `hash of appraised value for ... does not exist in collection ...`. -/
  | hashMissing (assetID collection : String)
  /-- `hash for appraised value for owner ... does not value for seller ...`. -/
  | hashMismatch (ownerHash buyerHash : Bytes)
  /-- `... does not exist`. -/
  | doesNotExist (id : String)
  /-- Stub: `collection must not be an empty string`. -/
  | emptyCollection
  /-- Stub: `key must not be an empty string`. -/
  | emptyKey
  /-- Stub: a composite-key attribute holds U+0000 or U+10FFFF. -/
  | invalidCompositeKey (att : String)
  /-- `fmt.Errorf("<context>: %s", err.Error())`: an error wrapped by the caller. -/
  | wrapped (context : String) (cause : Err)
  deriving DecidableEq, Repr

/-- The kind of the specification's taxonomy an error belongs to; a wrapped
error keeps the kind of its cause. -/
def Err.kind : Err → ErrKind
  | .transientUnavailable => .SubstrateError
  | .transientKeyMissing _ => .ValidationError
  | .unmarshalFailed => .DecodeError
  | .emptyField _ => .ValidationError
  | .notPositive _ => .ValidationError
  | .alreadyExists _ => .ConflictError
  | .identityUnavailable => .IdentityError
  | .peerOrgUnavailable => .IdentityError
  | .crossOrg _ _ => .AuthorizationError
  | .notOwner => .AuthorizationError
  | .hashMissing _ _ => .NotFoundError
  | .hashMismatch _ _ => .AgreementMismatchError
  | .doesNotExist _ => .NotFoundError
  | .emptyCollection => .SubstrateError
  | .emptyKey => .SubstrateError
  | .invalidCompositeKey _ => .SubstrateError
  | .wrapped _ cause => cause.kind

/-! ## Execution context, libraries and ledger -/

/-- The transaction context of one invocation: what `GetClientIdentity().GetID()`,
`GetClientIdentity().GetMSPID()`, `shim.GetMSPID()` and `GetStub().GetTransient()`
return; `none` is the Go error result. -/
structure Ctx where
  clientID : Option String
  clientMSPID : Option String
  peerMSPID : Option String
  transient : Option (String → Option Bytes)

/-- The libraries the chaincode calls: the content hash the ledger computes of a
stored value, and `json.Unmarshal` / `json.Marshal` at each Go type they are
used at (`none` is a decode error; marshalling these structs cannot fail). -/
structure Env where
  hash : Bytes → Bytes
  unmarshalAssetInput : Bytes → Option assetTransientInput
  unmarshalAsset : Bytes → Option Asset
  unmarshalPrivateDetails : Bytes → Option AssetPrivateDetails
  unmarshalTransferInput : Bytes → Option assetTransferTransientInput
  unmarshalDelete : Bytes → Option assetDelete
  marshalAsset : Asset → Bytes
  marshalPrivateDetails : AssetPrivateDetails → Bytes

/-- The ledger: the private data collections (collection name, then key) and the
public world state. -/
structure Ledger where
  priv : String → String → Option Bytes
  pub : String → Option Bytes

/-- A write issued to the stub. -/
inductive Write where
  | putPrivate (collection key : String) (value : Bytes)
  | delPrivate (collection key : String)
  | delState (key : String)
  deriving DecidableEq, Repr

/-- The ledger as seen by the running invocation and the writes issued so far. -/
structure World where
  ledger : Ledger
  writes : List Write

/-- The ledger with nothing stored. -/
def Ledger.empty : Ledger := ⟨fun _ _ => none, fun _ => none⟩

/-- A world over a ledger, before any write. -/
def World.start (l : Ledger) : World := ⟨l, []⟩

/-! ## The chaincode stub -/

/-- Stub `GetPrivateData`. -/
def GetPrivateData (w : World) (collection key : String) : Except Err (Option Bytes) :=
  if collection = "" then .error .emptyCollection
  else .ok (w.ledger.priv collection key)

/-- Stub `GetPrivateDataHash`: the hash of the stored bytes, `nil` when nothing is stored. -/
def GetPrivateDataHash (E : Env) (w : World) (collection key : String) :
    Except Err (Option Bytes) :=
  if collection = "" then .error .emptyCollection
  else .ok ((w.ledger.priv collection key).map E.hash)

/-- Stub `PutPrivateData`. -/
def PutPrivateData (w : World) (collection key : String) (value : Bytes) : Except Err World :=
  if collection = "" then .error .emptyCollection
  else if key = "" then .error .emptyKey
  else .ok
    { ledger :=
        { w.ledger with
          priv := fun c k => if c = collection ∧ k = key then some value else w.ledger.priv c k }
      writes := w.writes ++ [.putPrivate collection key value] }

/-- Stub `DelPrivateData`. -/
def DelPrivateData (w : World) (collection key : String) : Except Err World :=
  if collection = "" then .error .emptyCollection
  else .ok
    { ledger :=
        { w.ledger with
          priv := fun c k => if c = collection ∧ k = key then none else w.ledger.priv c k }
      writes := w.writes ++ [.delPrivate collection key] }

/-- Stub `DelState`: deletes from the public world state. -/
def DelState (w : World) (key : String) : Except Err World :=
  .ok
    { ledger := { w.ledger with pub := fun k => if k = key then none else w.ledger.pub k }
      writes := w.writes ++ [.delState key] }

/-- Stub `validateCompositeKeyAttribute`: no U+0000 and no U+10FFFF. -/
def validateCompositeKeyAttribute (s : String) : Bool :=
  s.data.all fun c => c.toNat ≠ 0 && c.toNat ≠ 0x10FFFF

/-- The key `CreateCompositeKey(objectType, attributes)` builds:
U+0000, the object type, U+0000, then every attribute followed by U+0000. -/
def compositeKey (objectType : String) (attributes : List String) : String :=
  attributes.foldl (fun ck att => ck ++ att ++ "\x00") ("\x00" ++ objectType ++ "\x00")

/-- Stub `CreateCompositeKey`. -/
def CreateCompositeKey (objectType : String) (attributes : List String) : Except Err String :=
  if !validateCompositeKeyAttribute objectType then .error (.invalidCompositeKey objectType)
  else match attributes.find? (fun att => !validateCompositeKeyAttribute att) with
    | some att => .error (.invalidCompositeKey att)
    | none => .ok (compositeKey objectType attributes)

/-! ## `private_asset_transfer.go` and `private_asset_queries.go` -/

/-- Go `getCollectionName`: the pair `(string, error)` it returns. -/
def getCollectionName (ctx : Ctx) : String × Option Err :=
  match ctx.clientMSPID with
  | none => ("", some (.wrapped "failed to get verified OrgID" .identityUnavailable))
  | some clientMSPID =>
  match ctx.peerMSPID with
  | none => ("", some (.wrapped "failed getting peer's orgID" .peerOrgUnavailable))
  | some peerOrgID =>
  if clientMSPID ≠ peerOrgID then ("", some (.crossOrg clientMSPID peerOrgID))
  else (clientMSPID ++ "PrivateCollection", none)

/-- Go `ReadAsset`. -/
def ReadAsset (E : Env) (w : World) (assetID : String) : Except Err Asset :=
  match GetPrivateData w assetCollection assetID with
  | .error e => .error (.wrapped "failed to read from asset" e)
  | .ok none => .error (.doesNotExist assetID)
  | .ok (some assetJSON) =>
  match E.unmarshalAsset assetJSON with
  | none => .error .unmarshalFailed
  | some asset => .ok asset

/-- Go `ReadAssetPrivateDetails`. -/
def ReadAssetPrivateDetails (E : Env) (w : World) (collection assetID : String) :
    Except Err AssetPrivateDetails :=
  match GetPrivateData w collection assetID with
  | .error e => .error (.wrapped "failed to read from asset details" e)
  | .ok none => .error (.doesNotExist assetID)
  | .ok (some assetDetailsJSON) =>
  match E.unmarshalPrivateDetails assetDetailsJSON with
  | none => .error .unmarshalFailed
  | some assetDetails => .ok assetDetails

/-- Go `ReadTransferAgreement`: the pair `(string, error)` it returns. -/
def ReadTransferAgreement (w : World) (assetID : String) : String × Option Err :=
  match CreateCompositeKey "transferAgreement" [assetID] with
  | .error e => ("", some (.wrapped "failed to create composite key" e))
  | .ok transferAgreeKey =>
  match GetPrivateData w assetCollection transferAgreeKey with
  | .error e => ("", some (.wrapped "failed to read from asset" e))
  | .ok none => ("", some (.doesNotExist assetID))
  | .ok (some buyerIdentity) => (buyerIdentity, none)

/-- Go `verifyAgreement`; the error of `getCollectionName` is not looked at. -/
def verifyAgreement (E : Env) (ctx : Ctx) (w : World) (assetID owner buyerMSP : String) :
    Except Err Unit :=
  match ctx.clientID with
  | none => .error (.wrapped "failed to get verified OrgID" .identityUnavailable)
  | some clientID =>
  if clientID ≠ owner then .error .notOwner
  else
  let collectionOwner := (getCollectionName ctx).1
  let collectionBuyer := buyerMSP ++ "PrivateCollection"
  match GetPrivateDataHash E w collectionOwner assetID with
  | .error e =>
    .error (.wrapped "failed to hash of appraised value from owners collection" e)
  | .ok none => .error (.hashMissing assetID collectionOwner)
  | .ok (some ownerAppraisedValueHash) =>
  match GetPrivateDataHash E w collectionBuyer assetID with
  | .error e =>
    .error (.wrapped "failed to hash of appraised value from buyer collection" e)
  | .ok none => .error (.hashMissing assetID collectionBuyer)
  | .ok (some buyerAppraisedValueHash) =>
  if ownerAppraisedValueHash ≠ buyerAppraisedValueHash then
    .error (.hashMismatch ownerAppraisedValueHash buyerAppraisedValueHash)
  else .ok ()

/-- Go `CreateAsset`; the error of `getCollectionName` is not looked at. -/
def CreateAsset (E : Env) (ctx : Ctx) (w : World) : Except Err Unit × World :=
  match ctx.transient with
  | none => (.error (.wrapped "Error getting transient" .transientUnavailable), w)
  | some transMap =>
  match transMap "asset_properties" with
  | none => (.error (.transientKeyMissing "asset_properties"), w)
  | some transientAssetJSON =>
  match E.unmarshalAssetInput transientAssetJSON with
  | none => (.error .unmarshalFailed, w)
  | some assetInput =>
  if assetInput.Type_.length = 0 then (.error (.emptyField "type"), w)
  else if assetInput.ID.length = 0 then (.error (.emptyField "asset_id"), w)
  else if assetInput.Color.length = 0 then (.error (.emptyField "color"), w)
  else if assetInput.Size ≤ 0 then (.error (.notPositive "size"), w)
  else if assetInput.AppraisedValue ≤ 0 then (.error (.notPositive "AppraisedValue"), w)
  else
  match GetPrivateData w assetCollection assetInput.ID with
  | .error e => (.error (.wrapped "Failed to get asset" e), w)
  | .ok (some _) => (.error (.alreadyExists assetInput.ID), w)
  | .ok none =>
  match ctx.clientID with
  | none => (.error (.wrapped "failed to get verified OrgID" .identityUnavailable), w)
  | some clientID =>
  let asset : Asset :=
    { Type_ := assetInput.Type_, ID := assetInput.ID, Color := assetInput.Color,
      Size := assetInput.Size, Owner := clientID }
  let assetJSONasBytes := E.marshalAsset asset
  match PutPrivateData w assetCollection assetInput.ID assetJSONasBytes with
  | .error e => (.error (.wrapped "failed to put Asset" e), w)
  | .ok w1 =>
  let assetPrivateDetails : AssetPrivateDetails :=
    { ID := assetInput.ID, AppraisedValue := assetInput.AppraisedValue }
  let assetPrivateDetailsAsBytes := E.marshalPrivateDetails assetPrivateDetails
  let orgCollection := (getCollectionName ctx).1
  match PutPrivateData w1 orgCollection assetInput.ID assetPrivateDetailsAsBytes with
  | .error e => (.error (.wrapped "failed to put asset private details" e), w1)
  | .ok w2 => (.ok (), w2)

/-- Go `AgreeToTransfer`; the error of `getCollectionName` is not looked at. -/
def AgreeToTransfer (E : Env) (ctx : Ctx) (w : World) : Except Err Unit × World :=
  match ctx.clientID with
  | none => (.error (.wrapped "failed to get verified OrgID" .identityUnavailable), w)
  | some clientID =>
  match ctx.transient with
  | none => (.error (.wrapped "Error getting transient" .transientUnavailable), w)
  | some transMap =>
  match transMap "asset_value" with
  | none => (.error (.transientKeyMissing "asset_value"), w)
  | some valueJSONasBytles =>
  match E.unmarshalPrivateDetails valueJSONasBytles with
  | none => (.error .unmarshalFailed, w)
  | some valueJSON =>
  if valueJSON.ID.length = 0 then (.error (.emptyField "asset_id"), w)
  else if valueJSON.AppraisedValue ≤ 0 then (.error (.notPositive "AppraisedValue"), w)
  else
  let orgCollection := (getCollectionName ctx).1
  match PutPrivateData w orgCollection valueJSON.ID valueJSONasBytles with
  | .error e => (.error (.wrapped "failed to put asset bid" e), w)
  | .ok w1 =>
  match CreateCompositeKey "transferAgreement" [valueJSON.ID] with
  | .error e => (.error (.wrapped "failed to create composite key" e), w1)
  | .ok transferAgreeKey =>
  match PutPrivateData w1 assetCollection transferAgreeKey clientID with
  | .error e => (.error (.wrapped "failed to put asset bid" e), w1)
  | .ok w2 => (.ok (), w2)

/-- Go `TransferAsset`; the errors of `ReadTransferAgreement` and of
`getCollectionName` are not looked at. -/
def TransferAsset (E : Env) (ctx : Ctx) (w : World) : Except Err Unit × World :=
  match ctx.transient with
  | none => (.error (.wrapped "Error getting transient" .transientUnavailable), w)
  | some transMap =>
  match transMap "asset_owner" with
  | none => (.error (.transientKeyMissing "asset_owner"), w)
  | some transientTransferJSON =>
  match E.unmarshalTransferInput transientTransferJSON with
  | none => (.error .unmarshalFailed, w)
  | some assetTransferInput =>
  if assetTransferInput.ID.length = 0 then (.error (.emptyField "asset_id"), w)
  else if assetTransferInput.BuyerMSP.length = 0 then (.error (.emptyField "owner"), w)
  else
  match ReadAsset E w assetTransferInput.ID with
  | .error e => (.error (.wrapped "failed to get asset" e), w)
  | .ok asset =>
  match verifyAgreement E ctx w assetTransferInput.ID asset.Owner assetTransferInput.BuyerMSP with
  | .error e => (.error (.wrapped "failed transfer verification" e), w)
  | .ok _ =>
  let buyerID := (ReadTransferAgreement w assetTransferInput.ID).1
  let asset : Asset := { asset with Owner := buyerID }
  let assetJSONasBytes := E.marshalAsset asset
  match PutPrivateData w assetCollection assetTransferInput.ID assetJSONasBytes with
  | .error e => (.error e, w)
  | .ok w1 =>
  let ownersCollection := (getCollectionName ctx).1
  match DelPrivateData w1 ownersCollection assetTransferInput.ID with
  | .error e => (.error e, w1)
  | .ok w2 =>
  match CreateCompositeKey "transferAgreement" [assetTransferInput.ID] with
  | .error e => (.error (.wrapped "failed to create composite key" e), w2)
  | .ok transferAgreeKey =>
  match DelPrivateData w2 assetCollection transferAgreeKey with
  | .error e => (.error e, w2)
  | .ok w3 => (.ok (), w3)

/-- Go `DeleteAsset`; the error of `getCollectionName` is not looked at. -/
def DeleteAsset (E : Env) (ctx : Ctx) (w : World) : Except Err Unit × World :=
  match ctx.transient with
  | none => (.error (.wrapped "Error getting transient" .transientUnavailable), w)
  | some transMap =>
  match transMap "asset_delete" with
  | none => (.error (.transientKeyMissing "asset_delete"), w)
  | some transientDeleteJSON =>
  match E.unmarshalDelete transientDeleteJSON with
  | none => (.error .unmarshalFailed, w)
  | some assetDeleteInput =>
  if assetDeleteInput.ID.length = 0 then (.error (.emptyField "ID"), w)
  else
  match GetPrivateData w assetCollection assetDeleteInput.ID with
  | .error e => (.error (.wrapped "failed to read asset" e), w)
  | .ok none => (.error (.doesNotExist assetDeleteInput.ID), w)
  | .ok (some valAsbytes) =>
  match E.unmarshalAsset valAsbytes with
  | none => (.error .unmarshalFailed, w)
  | some _ =>
  match DelPrivateData w assetCollection assetDeleteInput.ID with
  | .error e => (.error (.wrapped "Failed to delete state" e), w)
  | .ok w1 =>
  let ownerCollection := (getCollectionName ctx).1
  match DelPrivateData w1 ownerCollection assetDeleteInput.ID with
  | .error e => (.error e, w1)
  | .ok w2 => (.ok (), w2)

/-- Go `DeleteProposal`; the error of `getCollectionName` is not looked at, and
the agreement key is deleted with `DelState`. -/
def DeleteProposal (E : Env) (ctx : Ctx) (w : World) : Except Err Unit × World :=
  match ctx.transient with
  | none => (.error (.wrapped "Error getting transient" .transientUnavailable), w)
  | some transMap =>
  match transMap "agree_delete" with
  | none => (.error (.transientKeyMissing "agree_delete"), w)
  | some transientDeleteJSON =>
  match E.unmarshalDelete transientDeleteJSON with
  | none => (.error .unmarshalFailed, w)
  | some assetDeleteInput =>
  if assetDeleteInput.ID.length = 0 then (.error (.emptyField "ID"), w)
  else
  let orgCollection := (getCollectionName ctx).1
  match DelPrivateData w orgCollection assetDeleteInput.ID with
  | .error e => (.error e, w)
  | .ok w1 =>
  match CreateCompositeKey "transferAgreement" [assetDeleteInput.ID] with
  | .error e => (.error (.wrapped "failed to create composite key" e), w1)
  | .ok tranferAgreeKey =>
  match DelState w1 tranferAgreeKey with
  | .error e => (.error e, w1)
  | .ok w2 => (.ok (), w2)

/-! ## `privateAssetTransfer.go`, the variant of the same chaincode -/

namespace Variant

/-- Go `getCollectionName` of `privateAssetTransfer.go`: the pair `(string, error)`
it returns; the peer's org is not consulted. -/
def getCollectionName (ctx : Ctx) : String × Option Err :=
  match ctx.clientMSPID with
  | none => ("", some (.wrapped "failed to get verified OrgID" .identityUnavailable))
  | some mspID => (mspID ++ "DetailsCollection", none)

/-- Go `AgreeToPrice` of `privateAssetTransfer.go`: the asset id is an argument
and the transient payload is not decoded; the error of `getCollectionName` is not
looked at. -/
def AgreeToPrice (ctx : Ctx) (w : World) (assetID : String) : Except Err Unit × World :=
  match ctx.clientID with
  | none => (.error (.wrapped "failed to get verified OrgID" .identityUnavailable), w)
  | some clientID =>
  match ctx.transient with
  | none => (.error (.wrapped "Error getting transient" .transientUnavailable), w)
  | some transMap =>
  match transMap "asset_price" with
  | none => (.error (.transientKeyMissing "asset_price"), w)
  | some priceJSON =>
  let orgCollection := (getCollectionName ctx).1
  match PutPrivateData w orgCollection assetID priceJSON with
  | .error e => (.error (.wrapped "failed to put asset bid" e), w)
  | .ok w1 =>
  match CreateCompositeKey "transferAgreement" [assetID] with
  | .error e => (.error (.wrapped "failed to create composite key" e), w1)
  | .ok transferAgreeKey =>
  match PutPrivateData w1 assetCollection transferAgreeKey clientID with
  | .error e => (.error (.wrapped "failed to put asset bid" e), w1)
  | .ok w2 => (.ok (), w2)

/-- Go `verifyAgreement` of `privateAssetTransfer.go`; the error of
`getCollectionName` is not looked at. -/
def verifyAgreement (E : Env) (ctx : Ctx) (w : World) (assetID owner buyerMSP : String) :
    Except Err Unit :=
  match ctx.clientID with
  | none => .error (.wrapped "failed to get verified OrgID" .identityUnavailable)
  | some clientID =>
  if clientID ≠ owner then .error .notOwner
  else
  let collectionOwner := (getCollectionName ctx).1
  let collectionBuyer := buyerMSP ++ "DetailsCollection"
  match GetPrivateDataHash E w collectionOwner assetID with
  | .error e =>
    .error (.wrapped "failed to read asset private properties hash from owners collection" e)
  | .ok none => .error (.hashMissing assetID collectionOwner)
  | .ok (some ownerOnChainHash) =>
  match GetPrivateDataHash E w collectionBuyer assetID with
  | .error e =>
    .error (.wrapped "failed to read asset private properties hash from buyer collection" e)
  | .ok none => .error (.hashMissing assetID collectionBuyer)
  | .ok (some buyerOnChainHash) =>
  if ownerOnChainHash ≠ buyerOnChainHash then
    .error (.hashMismatch ownerOnChainHash buyerOnChainHash)
  else .ok ()

end Variant

/-! ## Rich queries of `private_asset_queries.go` -/

/-- Stub `GetPrivateDataQueryResult`: the state database answers a query string
on a collection with an error or with an iterator, given here as the list of
what its successive `Next()` calls return (a stored value or an error).  The
query engine is outside the repository and is a parameter. -/
abbrev QueryEngine := World → String → String → Except Err (List (Except Err Bytes))

/-- Go `strings.ToLower` on strings whose upper-case letters are all ASCII: the
letters `A` to `Z` are lowered and every other character is kept.  The library
function also lowers the upper-case letters outside ASCII, which this
definition keeps as they are; it is used on ASCII owners only. -/
def ToLower (s : String) : String := ⟨s.data.map Char.toLower⟩

/-- The loop of `getQueryResultForQueryString` over the iterator. -/
def collectAssets (E : Env) : List (Except Err Bytes) → List Asset → Except Err (List Asset)
  | [], results => .ok results
  | .error e :: _, _ => .error e
  | .ok value :: rest, results =>
    match E.unmarshalAsset value with
    | none => .error .unmarshalFailed
    | some newAsset => collectAssets E rest (results ++ [newAsset])

/-- Go `getQueryResultForQueryString`. -/
def getQueryResultForQueryString (E : Env) (engine : QueryEngine) (w : World)
    (queryString : String) : Except Err (List Asset) :=
  match engine w "assetCollection" queryString with
  | .error e => .error e
  | .ok resultsIterator => collectAssets E resultsIterator []

/-- The selector `QueryAssetByOwner` formats: `fmt.Sprintf` of
`{"selector":{"docType":"asset","owner":"%s"}}`. -/
def ownerSelector (ownerString : String) : String :=
  "\x7b\"selector\":\x7b\"docType\":\"asset\",\"owner\":\"" ++ ownerString ++ "\"\x7d\x7d"

/-- Go `QueryAssetByOwner`. -/
def QueryAssetByOwner (E : Env) (engine : QueryEngine) (w : World) (owner : String) :
    Except Err (List Asset) :=
  let ownerString := ToLower owner
  let queryString := ownerSelector ownerString
  match getQueryResultForQueryString E engine w queryString with
  | .error e => .error e
  | .ok queryResults => .ok queryResults

/-- Go `QueryAssets`. -/
def QueryAssets (E : Env) (engine : QueryEngine) (w : World) (queryString : String) :
    Except Err (List Asset) :=
  match getQueryResultForQueryString E engine w queryString with
  | .error e => .error e
  | .ok queryResults => .ok queryResults

/-! ## Invocations -/

deriving instance DecidableEq for Except

/-- The public operations that write. -/
inductive Op where
  | CreateAsset
  | AgreeToTransfer
  | TransferAsset
  | DeleteAsset
  | DeleteProposal
  deriving DecidableEq, Repr

/-- The chaincode function an operation names. -/
def Op.run (E : Env) : Op → Ctx → World → Except Err Unit × World
  | .CreateAsset => PrivateAssetTransfer.CreateAsset E
  | .AgreeToTransfer => PrivateAssetTransfer.AgreeToTransfer E
  | .TransferAsset => PrivateAssetTransfer.TransferAsset E
  | .DeleteAsset => PrivateAssetTransfer.DeleteAsset E
  | .DeleteProposal => PrivateAssetTransfer.DeleteProposal E

/-- One invocation as a ledger transaction: the writes of an invocation that
returns `nil` are committed, those of an invocation that returns an error are
dropped. -/
def invoke (E : Env) (l : Ledger) (call : Op × Ctx) : Ledger :=
  match call.1.run E call.2 (World.start l) with
  | (.ok _, w) => w.ledger
  | (.error _, _) => l

/-- A sequence of invocations, one transaction after the other. -/
def runCalls (E : Env) (calls : List (Op × Ctx)) (l : Ledger) : Ledger :=
  calls.foldl (invoke E) l

/-! ## A sample deployment

The organizations `Org1MSP`, `Org2MSP` and `Org3MSP`, the clients `alice` (of
`Org1MSP`), `bob` (of `Org2MSP`) and `carol` (of `Org3MSP`), and the asset `asset1`.  The sample `Env` encodes as
`json.Marshal` does (fields in declaration order, no blanks), decodes the
payloads listed here as `json.Unmarshal` does, and hashes with the identity. -/

namespace Sample

/-- What `json.Marshal` gives for an `Asset` whose strings need no escaping. -/
def sampleMarshalAsset (a : Asset) : Bytes :=
  "\x7b\"type\":\"" ++ a.Type_ ++ "\",\"asset_id\":\"" ++ a.ID ++ "\",\"color\":\"" ++ a.Color ++
    "\",\"size\":" ++ toString a.Size ++ ",\"owner\":\"" ++ a.Owner ++ "\"\x7d"

/-- What `json.Marshal` gives for an `AssetPrivateDetails` whose id needs no escaping. -/
def sampleMarshalPrivateDetails (d : AssetPrivateDetails) : Bytes :=
  "\x7b\"asset_id\":\"" ++ d.ID ++ "\",\"appraised_value\":" ++ toString d.AppraisedValue ++ "\x7d"

/-- Transient `asset_properties`: `asset1`, blue, size 10, appraised value 100. -/
def assetProperties : Bytes :=
  "\x7b\"type\":\"asset\",\"asset_id\":\"asset1\",\"color\":\"blue\",\"size\":10,\"appraised_value\":100\x7d"

/-- Transient `asset_properties` with an empty color. -/
def assetPropertiesNoColor : Bytes :=
  "\x7b\"type\":\"asset\",\"asset_id\":\"asset1\",\"color\":\"\",\"size\":10,\"appraised_value\":100\x7d"

/-- Transient `asset_value`: appraised value 100, as `json.Marshal` writes it. -/
def value100 : Bytes := "\x7b\"asset_id\":\"asset1\",\"appraised_value\":100\x7d"

/-- Transient `asset_value`: appraised value 100, the two fields in the other order. -/
def value100Reordered : Bytes := "\x7b\"appraised_value\":100,\"asset_id\":\"asset1\"\x7d"

/-- Transient `asset_value`: appraised value 90. -/
def value90 : Bytes := "\x7b\"asset_id\":\"asset1\",\"appraised_value\":90\x7d"

/-- Transient `asset_owner`: transfer `asset1` to `Org1MSP`. -/
def toOrg1 : Bytes := "\x7b\"asset_id\":\"asset1\",\"buyer_msp\":\"Org1MSP\"\x7d"

/-- Transient `asset_owner`: transfer `asset1` to `Org2MSP`. -/
def toOrg2 : Bytes := "\x7b\"asset_id\":\"asset1\",\"buyer_msp\":\"Org2MSP\"\x7d"

/-- Transient `asset_delete` / `agree_delete` for `asset1`. -/
def deleteAsset1 : Bytes := "\x7b\"asset_id\":\"asset1\"\x7d"

/-- The public record of `asset1` with a given owner. -/
def asset1 (owner : String) : Asset := ⟨"asset", "asset1", "blue", 10, owner⟩

/-- The sample libraries. -/
def env : Env where
  hash := fun b => b
  unmarshalAssetInput := fun b =>
    if b = assetProperties then some ⟨"asset", "asset1", "blue", 10, 100⟩
    else if b = assetPropertiesNoColor then some ⟨"asset", "asset1", "", 10, 100⟩
    else none
  unmarshalAsset := fun b =>
    (["alice", "bob", "carol", ""].map asset1).find? fun a => sampleMarshalAsset a = b
  unmarshalPrivateDetails := fun b =>
    if b = value100 then some ⟨"asset1", 100⟩
    else if b = value100Reordered then some ⟨"asset1", 100⟩
    else if b = value90 then some ⟨"asset1", 90⟩
    else none
  unmarshalTransferInput := fun b =>
    if b = toOrg1 then some ⟨"asset1", "Org1MSP"⟩
    else if b = toOrg2 then some ⟨"asset1", "Org2MSP"⟩
    else none
  unmarshalDelete := fun b => if b = deleteAsset1 then some ⟨"asset1"⟩ else none
  marshalAsset := sampleMarshalAsset
  marshalPrivateDetails := sampleMarshalPrivateDetails

/-- The transient map holding one entry. -/
def transientOf (key : String) (payload : Bytes) : String → Option Bytes :=
  fun k => if k = key then some payload else none

/-- The context of a call by a client of an org, on a peer of an org, with one
transient entry. -/
def call (clientID mspID peerID key : String) (payload : Bytes) : Ctx where
  clientID := some clientID
  clientMSPID := some mspID
  peerMSPID := some peerID
  transient := some (transientOf key payload)

/-- The call of `alice` that creates `asset1`. -/
def aliceCreates : Ctx := call "alice" "Org1MSP" "Org1MSP" "asset_properties" assetProperties

/-- The call of `alice` that tries to create `asset1` with an empty color. -/
def aliceCreatesNoColor : Ctx :=
  call "alice" "Org1MSP" "Org1MSP" "asset_properties" assetPropertiesNoColor

/-- The call of `bob` that agrees to the value 100. -/
def bobAgrees100 : Ctx := call "bob" "Org2MSP" "Org2MSP" "asset_value" value100

/-- The call of `bob` that agrees to the value 90. -/
def bobAgrees90 : Ctx := call "bob" "Org2MSP" "Org2MSP" "asset_value" value90

/-- The call of `alice` that transfers `asset1` to `Org2MSP`. -/
def aliceTransfersToOrg2 : Ctx := call "alice" "Org1MSP" "Org1MSP" "asset_owner" toOrg2

/-- The call of `alice` that transfers `asset1` to her own org. -/
def aliceTransfersToOrg1 : Ctx := call "alice" "Org1MSP" "Org1MSP" "asset_owner" toOrg1

/-- The call of `alice`, sent to a peer of `Org2MSP`, that transfers `asset1` to `Org2MSP`. -/
def aliceOnOrg2PeerTransfers : Ctx := call "alice" "Org1MSP" "Org2MSP" "asset_owner" toOrg2

/-- The call of `bob` that tries to transfer `asset1` to `Org2MSP`. -/
def bobTransfersToOrg2 : Ctx := call "bob" "Org2MSP" "Org2MSP" "asset_owner" toOrg2

/-- The call of `bob` that agrees to the value 100 with the fields in the other order. -/
def bobAgrees100Reordered : Ctx :=
  call "bob" "Org2MSP" "Org2MSP" "asset_value" value100Reordered

/-- The call of `carol`, a client of `Org3MSP`, that agrees to the value 100. -/
def carolAgrees100 : Ctx := call "carol" "Org3MSP" "Org3MSP" "asset_value" value100

/-- The call of `bob` that withdraws his proposal for `asset1`. -/
def bobWithdraws : Ctx := call "bob" "Org2MSP" "Org2MSP" "agree_delete" deleteAsset1

/-- The call of `alice` that deletes `asset1`. -/
def aliceDeletes : Ctx := call "alice" "Org1MSP" "Org1MSP" "asset_delete" deleteAsset1

/-- The call of `bob`, who does not own `asset1`, that deletes it. -/
def bobDeletes : Ctx := call "bob" "Org2MSP" "Org2MSP" "asset_delete" deleteAsset1

/-- The call of `bob`, sent to a peer of `Org1MSP`, that deletes `asset1`. -/
def bobOnOrg1PeerDeletes : Ctx := call "bob" "Org2MSP" "Org1MSP" "asset_delete" deleteAsset1

/-- A transient `asset_price` that is not JSON. -/
def notJSON : Bytes := "one hundred"

/-- The call of `bob` to `AgreeToPrice` with a price that is not JSON. -/
def bobAgreesPrice : Ctx := call "bob" "Org2MSP" "Org2MSP" "asset_price" notJSON

/-- The call of `carol` that agrees to the value 90. -/
def carolAgrees90 : Ctx := call "carol" "Org3MSP" "Org3MSP" "asset_value" value90

/-- The call of `alice`, sent to a peer of `Org2MSP`, that creates `asset1`. -/
def aliceOnOrg2PeerCreates : Ctx :=
  call "alice" "Org1MSP" "Org2MSP" "asset_properties" assetProperties

/-- The call of `alice`, sent to a peer of `Org2MSP`, that deletes `asset1`. -/
def aliceOnOrg2PeerDeletes : Ctx := call "alice" "Org1MSP" "Org2MSP" "asset_delete" deleteAsset1

/-- The call of `bob`, sent to a peer of `Org1MSP`, that agrees to the value 100. -/
def bobOnOrg1PeerAgrees : Ctx := call "bob" "Org2MSP" "Org1MSP" "asset_value" value100

/-- The call of `bob`, sent to a peer of `Org1MSP`, that withdraws his proposal. -/
def bobOnOrg1PeerWithdraws : Ctx := call "bob" "Org2MSP" "Org1MSP" "agree_delete" deleteAsset1

/-- The ledger after `alice` created `asset1`. -/
def created : Ledger := invoke env Ledger.empty (.CreateAsset, aliceCreates)

/-- The ledger after `alice` created `asset1` and `bob` agreed to the value 100. -/
def agreed : Ledger := invoke env created (.AgreeToTransfer, bobAgrees100)

/-- The ledger after `alice` created `asset1` and `bob` agreed to the value 90. -/
def agreed90 : Ledger := invoke env created (.AgreeToTransfer, bobAgrees90)

/-- The ledger after `alice` created `asset1`, `bob` agreed to the value 100 and
then withdrew his proposal. -/
def withdrawn : Ledger := invoke env agreed (.DeleteProposal, bobWithdraws)

/-- The ledger after `alice` created `asset1` and `bob` agreed to the value 100 with
the fields of his payload in the other order. -/
def agreedReordered : Ledger := invoke env created (.AgreeToTransfer, bobAgrees100Reordered)

/-- The ledger after `alice` created `asset1`, `bob` agreed to the value 100 and
then `carol` agreed to the value 90. -/
def outbid : Ledger := invoke env agreed (.AgreeToTransfer, carolAgrees90)

end Sample

/-! ## Collection names and composite keys -/

theorem privateCollection_length (o : String) :
    (o ++ "PrivateCollection").length = o.length + 17 := by
  rw [String.length_append]; rfl

theorem privateCollection_ne_empty (o : String) : o ++ "PrivateCollection" ≠ "" := by
  intro h
  have := congrArg String.length h
  rw [privateCollection_length] at this
  simp at this

theorem privateCollection_ne_assetCollection (o : String) :
    o ++ "PrivateCollection" ≠ assetCollection := by
  intro h
  have := congrArg String.length h
  rw [privateCollection_length] at this
  have h15 : assetCollection.length = 15 := rfl
  omega

theorem assetCollection_ne_empty : assetCollection ≠ "" := by decide

theorem getCollectionName_of_same_org (ctx : Ctx) (o : String)
    (hmsp : ctx.clientMSPID = some o) (hpeer : ctx.peerMSPID = some o) :
    getCollectionName ctx = (o ++ "PrivateCollection", none) := by
  simp [getCollectionName, hmsp, hpeer]

theorem getCollectionName_fst (ctx : Ctx) :
    (getCollectionName ctx).1 = "" ∨
      ∃ o, ctx.clientMSPID = some o ∧ ctx.peerMSPID = some o ∧
        (getCollectionName ctx).1 = o ++ "PrivateCollection" := by
  unfold getCollectionName
  cases h1 : ctx.clientMSPID with
  | none => simp
  | some c =>
    cases h2 : ctx.peerMSPID with
    | none => simp
    | some p =>
      by_cases h : c = p
      · subst h; simp
      · simp [h]

/-! ## C1: `verifyAgreement` -/

/-- C1: on a peer of the caller's own org, `verifyAgreement` succeeds exactly when
the caller is the recorded owner and the content hashes at the asset id in the
caller's org collection and in `buyerMSP ++ "PrivateCollection"` both exist and
are equal; a wrong caller gets the authorization error, an absent hash the
not-found error, unequal hashes the mismatch error. -/
theorem verifyAgreement_iff (E : Env) (ctx : Ctx) (w : World)
    (assetID owner buyerMSP c o : String)
    (hid : ctx.clientID = some c) (hmsp : ctx.clientMSPID = some o)
    (hpeer : ctx.peerMSPID = some o) :
    (verifyAgreement E ctx w assetID owner buyerMSP = .ok () ↔
      c = owner ∧ ∃ h,
        GetPrivateDataHash E w (o ++ "PrivateCollection") assetID = .ok (some h) ∧
        GetPrivateDataHash E w (buyerMSP ++ "PrivateCollection") assetID = .ok (some h)) ∧
    (c ≠ owner → ∃ e, verifyAgreement E ctx w assetID owner buyerMSP = .error e ∧
      e.kind = .AuthorizationError) ∧
    (c = owner →
      (GetPrivateDataHash E w (o ++ "PrivateCollection") assetID = .ok none ∨
        GetPrivateDataHash E w (buyerMSP ++ "PrivateCollection") assetID = .ok none) →
      ∃ e, verifyAgreement E ctx w assetID owner buyerMSP = .error e ∧
        e.kind = .NotFoundError) ∧
    (c = owner → ∀ h₁ h₂,
      GetPrivateDataHash E w (o ++ "PrivateCollection") assetID = .ok (some h₁) →
      GetPrivateDataHash E w (buyerMSP ++ "PrivateCollection") assetID = .ok (some h₂) →
      h₁ ≠ h₂ →
      ∃ e, verifyAgreement E ctx w assetID owner buyerMSP = .error e ∧
        e.kind = .AgreementMismatchError) := by
  have hcoll := getCollectionName_of_same_org ctx o hmsp hpeer
  have hne₁ := privateCollection_ne_empty o
  have hne₂ := privateCollection_ne_empty buyerMSP
  simp only [verifyAgreement, hid, hcoll, GetPrivateDataHash, hne₁, hne₂, if_false]
  by_cases hc : c = owner
  · subst hc
    cases h₁ : w.ledger.priv (o ++ "PrivateCollection") assetID <;>
      cases h₂ : w.ledger.priv (buyerMSP ++ "PrivateCollection") assetID <;>
      simp [Err.kind]
    rename_i v₁ v₂
    by_cases hh : E.hash v₁ = E.hash v₂
    · simp [hh, Err.kind]
    · simp [hh, Ne.symm hh, Err.kind]
  · simp [hc, Err.kind]

/-- Witness of C1 in the sample deployment: `alice` owns `asset1`, `bob` agreed to
the value 100. -/
theorem verifyAgreement_iff_witness :
    Sample.aliceTransfersToOrg2.clientID = some "alice" ∧
    Sample.aliceTransfersToOrg2.clientMSPID = some "Org1MSP" ∧
    Sample.aliceTransfersToOrg2.peerMSPID = some "Org1MSP" ∧
    verifyAgreement Sample.env Sample.aliceTransfersToOrg2 (World.start Sample.agreed)
      "asset1" "alice" "Org2MSP" = .ok () :=
  ⟨rfl, rfl, rfl,
    (verifyAgreement_iff Sample.env Sample.aliceTransfersToOrg2 (World.start Sample.agreed)
      "asset1" "alice" "Org2MSP" "alice" "Org1MSP" rfl rfl rfl).1.2
      ⟨rfl, Sample.value100, by decide, by decide⟩⟩

/-! ## Helper facts -/

theorem length_eq_zero_iff (s : String) : s.length = 0 ↔ s = "" := by
  cases s with
  | mk l => cases l <;> simp [String.length, String.ext_iff]

theorem length_ne_zero_of_ne {s : String} (h : s ≠ "") : ¬ s.length = 0 :=
  fun h0 => h ((length_eq_zero_iff s).1 h0)

/-! ## C2, C5, C6: the unchecked error of `ReadTransferAgreement` -/

/-- C2 (code at the failing input): `alice` owns `asset1` and nobody agreed to
buy it, so no buyer identity is recorded at the `transferAgreement` key; her
`TransferAsset` naming her own org returns success and the asset record then has the
owner `""`. -/
theorem TransferAsset_success_without_recorded_buyer :
    Sample.created.priv assetCollection (compositeKey "transferAgreement" ["asset1"]) = none ∧
    (TransferAsset Sample.env Sample.aliceTransfersToOrg1 (World.start Sample.created)).1
      = .ok () ∧
    ReadAsset Sample.env
      (TransferAsset Sample.env Sample.aliceTransfersToOrg1 (World.start Sample.created)).2
      "asset1" = .ok (Sample.asset1 "") := by
  decide

/-- C5 (code at the failing input): the asset exists, `verifyAgreement` succeeds,
`ReadTransferAgreement` reports that no agreement exists, and `TransferAsset` still
returns `nil` after it rewrote the asset record at `asset1`. -/
theorem TransferAsset_ignores_missing_agreement :
    ReadAsset Sample.env (World.start Sample.created) "asset1" = .ok (Sample.asset1 "alice") ∧
    verifyAgreement Sample.env Sample.aliceTransfersToOrg1 (World.start Sample.created)
      "asset1" "alice" "Org1MSP" = .ok () ∧
    ReadTransferAgreement (World.start Sample.created) "asset1"
      = ("", some (.doesNotExist "asset1")) ∧
    (TransferAsset Sample.env Sample.aliceTransfersToOrg1 (World.start Sample.created)).1
      = .ok () ∧
    (TransferAsset Sample.env Sample.aliceTransfersToOrg1 (World.start Sample.created)).2.writes
      = [.putPrivate assetCollection "asset1" (Sample.sampleMarshalAsset (Sample.asset1 "")),
         .delPrivate "Org1MSPPrivateCollection" "asset1",
         .delPrivate assetCollection (compositeKey "transferAgreement" ["asset1"])] := by
  decide

/-- C6 (code at the failing input): from the empty ledger, `alice` creates `asset1`
and then transfers it naming her own org; both calls carry the non-empty identity
`alice`, both commit, and the asset record of the reached ledger has the owner
`""`. -/
theorem reachable_asset_with_empty_owner :
    Sample.aliceCreates.clientID = some "alice" ∧
    Sample.aliceTransfersToOrg1.clientID = some "alice" ∧
    ReadAsset Sample.env
      (World.start (runCalls Sample.env
        [(.CreateAsset, Sample.aliceCreates), (.TransferAsset, Sample.aliceTransfersToOrg1)]
        Ledger.empty))
      "asset1" = .ok (Sample.asset1 "") := by
  decide

/-! ## C3: a caller who is not the owner -/

/-- C3: when an asset record exists at the id of a valid transfer input and the
caller's identity differs from the recorded owner, `TransferAsset` fails with
the authorization error and leaves the world as it was (no write issued),
whatever else the ledger holds. -/
theorem TransferAsset_not_owner (E : Env) (ctx : Ctx) (w : World)
    (transMap : String → Option Bytes) (payload : Bytes)
    (input : assetTransferTransientInput) (asset : Asset) (c : String)
    (htr : ctx.transient = some transMap) (hpl : transMap "asset_owner" = some payload)
    (hdec : E.unmarshalTransferInput payload = some input)
    (hID : input.ID ≠ "") (hbuyer : input.BuyerMSP ≠ "")
    (hasset : ReadAsset E w input.ID = .ok asset)
    (hc : ctx.clientID = some c) (hne : c ≠ asset.Owner) :
    ∃ e, TransferAsset E ctx w = (.error e, w) ∧ e.kind = .AuthorizationError := by
  refine ⟨.wrapped "failed transfer verification" .notOwner, ?_, rfl⟩
  simp [TransferAsset, htr, hpl, hdec, length_ne_zero_of_ne hID, length_ne_zero_of_ne hbuyer,
    hasset, verifyAgreement, hc, hne]

/-- Witness of C3: `bob` tries to transfer the asset `alice` owns. -/
theorem TransferAsset_not_owner_witness :
    ∃ e, TransferAsset Sample.env Sample.bobTransfersToOrg2 (World.start Sample.agreed)
        = (.error e, World.start Sample.agreed) ∧ e.kind = .AuthorizationError :=
  TransferAsset_not_owner Sample.env Sample.bobTransfersToOrg2 (World.start Sample.agreed)
    (Sample.transientOf "asset_owner" Sample.toOrg2) Sample.toOrg2 ⟨"asset1", "Org2MSP"⟩
    (Sample.asset1 "alice") "bob" rfl (by decide) (by decide) (by decide) (by decide)
    (by decide) rfl (by decide)

/-! ## C4: unequal commitments -/

/-- C4 (counterexample): `alice` owns `asset1`, the hashes at `asset1` in the
collections of `Org1MSP` and `Org2MSP` both exist and differ, but her call reaches
a peer of `Org2MSP`: `TransferAsset` fails with the stub's error for the empty
collection name, not with the mismatch error. -/
theorem TransferAsset_mismatch_on_foreign_peer :
    ReadAsset Sample.env (World.start Sample.agreed90) "asset1" = .ok (Sample.asset1 "alice") ∧
    Sample.aliceOnOrg2PeerTransfers.clientID = some "alice" ∧
    GetPrivateDataHash Sample.env (World.start Sample.agreed90) "Org1MSPPrivateCollection"
      "asset1" = .ok (some (Sample.sampleMarshalPrivateDetails ⟨"asset1", 100⟩)) ∧
    GetPrivateDataHash Sample.env (World.start Sample.agreed90) "Org2MSPPrivateCollection"
      "asset1" = .ok (some Sample.value90) ∧
    Sample.sampleMarshalPrivateDetails ⟨"asset1", 100⟩ ≠ Sample.value90 ∧
    (TransferAsset Sample.env Sample.aliceOnOrg2PeerTransfers (World.start Sample.agreed90)).1
      = .error (.wrapped "failed transfer verification"
          (.wrapped "failed to hash of appraised value from owners collection"
            .emptyCollection)) ∧
    ¬ ∃ e, (TransferAsset Sample.env Sample.aliceOnOrg2PeerTransfers
        (World.start Sample.agreed90)).1 = .error e ∧ e.kind = .AgreementMismatchError := by
  refine ⟨by decide, rfl, by decide, by decide, by decide, by decide, ?_⟩
  rintro ⟨e, he, hk⟩
  have h : (TransferAsset Sample.env Sample.aliceOnOrg2PeerTransfers
      (World.start Sample.agreed90)).1 = .error (.wrapped "failed transfer verification"
        (.wrapped "failed to hash of appraised value from owners collection"
          .emptyCollection)) := by decide
  rw [h] at he
  cases he
  simp [Err.kind] at hk

/-- C4 (amended): on a peer of the caller's own org, when the caller owns the
asset at the id of a valid transfer input and the content hashes at that id in
the seller's and the buyer's collections both exist and differ, `TransferAsset`
fails with the mismatch error and leaves the world as it was (no write
issued). -/
theorem TransferAsset_mismatch (E : Env) (ctx : Ctx) (w : World)
    (transMap : String → Option Bytes) (payload : Bytes)
    (input : assetTransferTransientInput) (asset : Asset) (o h₁ h₂ : String)
    (htr : ctx.transient = some transMap) (hpl : transMap "asset_owner" = some payload)
    (hdec : E.unmarshalTransferInput payload = some input)
    (hID : input.ID ≠ "") (hbuyer : input.BuyerMSP ≠ "")
    (hasset : ReadAsset E w input.ID = .ok asset)
    (hc : ctx.clientID = some asset.Owner)
    (hmsp : ctx.clientMSPID = some o) (hpeer : ctx.peerMSPID = some o)
    (hown : GetPrivateDataHash E w (o ++ "PrivateCollection") input.ID = .ok (some h₁))
    (hbuy : GetPrivateDataHash E w (input.BuyerMSP ++ "PrivateCollection") input.ID
      = .ok (some h₂))
    (hdiff : h₁ ≠ h₂) :
    ∃ e, TransferAsset E ctx w = (.error e, w) ∧ e.kind = .AgreementMismatchError := by
  refine ⟨.wrapped "failed transfer verification" (.hashMismatch h₁ h₂), ?_, rfl⟩
  simp [TransferAsset, htr, hpl, hdec, length_ne_zero_of_ne hID, length_ne_zero_of_ne hbuyer,
    hasset, verifyAgreement, hc, getCollectionName_of_same_org ctx o hmsp hpeer, hown, hbuy,
    hdiff]

/-- Witness of C4 (amended): `bob` agreed to 90 where `alice` recorded 100. -/
theorem TransferAsset_mismatch_witness :
    ∃ e, TransferAsset Sample.env Sample.aliceTransfersToOrg2 (World.start Sample.agreed90)
        = (.error e, World.start Sample.agreed90) ∧ e.kind = .AgreementMismatchError :=
  TransferAsset_mismatch Sample.env Sample.aliceTransfersToOrg2 (World.start Sample.agreed90)
    (Sample.transientOf "asset_owner" Sample.toOrg2) Sample.toOrg2 ⟨"asset1", "Org2MSP"⟩
    (Sample.asset1 "alice") "Org1MSP" (Sample.sampleMarshalPrivateDetails ⟨"asset1", 100⟩)
    Sample.value90 rfl (by decide) (by decide) (by decide) (by decide) (by decide) rfl rfl rfl
    (by decide) (by decide) (by decide)

/-! ## C7: the commitment is the payload, byte for byte -/

/-- C7: when `AgreeToTransfer` succeeds for a caller of org `o` on the transient
payload `b`, the value stored afterwards at the payload's asset id in the
collection `o ++ "PrivateCollection"` is `b` itself, and the content hash the
stub returns at that key is the hash of `b`. -/
theorem AgreeToTransfer_stores_payload (E : Env) (ctx : Ctx) (w : World)
    (transMap : String → Option Bytes) (b : Bytes) (value : AssetPrivateDetails) (o : String)
    (htr : ctx.transient = some transMap) (hpl : transMap "asset_value" = some b)
    (hdec : E.unmarshalPrivateDetails b = some value)
    (hmsp : ctx.clientMSPID = some o)
    (hok : (AgreeToTransfer E ctx w).1 = .ok ()) :
    (AgreeToTransfer E ctx w).2.ledger.priv (o ++ "PrivateCollection") value.ID = some b ∧
    GetPrivateDataHash E (AgreeToTransfer E ctx w).2 (o ++ "PrivateCollection") value.ID
      = .ok (some (E.hash b)) := by
  have hne := privateCollection_ne_empty o
  have hna := privateCollection_ne_assetCollection o
  have hae := assetCollection_ne_empty
  cases hcid : ctx.clientID with
  | none => simp [AgreeToTransfer, hcid] at hok
  | some clientID =>
    rcases getCollectionName_fst ctx with h0 | ⟨o', h1, _, h3⟩
    · exfalso
      simp only [AgreeToTransfer, hcid, htr, hpl, hdec, h0, PutPrivateData] at hok
      split_ifs at hok
    · obtain rfl : o' = o := by rw [hmsp] at h1; exact (Option.some.inj h1).symm
      simp only [AgreeToTransfer, hcid, htr, hpl, hdec, h3, PutPrivateData, hne, hae,
        if_false] at hok ⊢
      split_ifs at hok ⊢
      cases hck : CreateCompositeKey "transferAgreement" [value.ID] with
      | error e => simp [hck] at hok
      | ok key =>
        simp only [hck] at hok ⊢
        split_ifs at hok ⊢
        simp [GetPrivateDataHash, hne, hna]

/-- Witness of C7: `bob` of `Org2MSP` agrees to the value 100. -/
theorem AgreeToTransfer_stores_payload_witness :
    (AgreeToTransfer Sample.env Sample.bobAgrees100 (World.start Sample.created)).1 = .ok () ∧
    (AgreeToTransfer Sample.env Sample.bobAgrees100 (World.start Sample.created)).2.ledger.priv
      ("Org2MSP" ++ "PrivateCollection") "asset1" = some Sample.value100 ∧
    GetPrivateDataHash Sample.env
      (AgreeToTransfer Sample.env Sample.bobAgrees100 (World.start Sample.created)).2
      ("Org2MSP" ++ "PrivateCollection") "asset1" = .ok (some (Sample.env.hash Sample.value100)) :=
  ⟨by decide,
    AgreeToTransfer_stores_payload Sample.env Sample.bobAgrees100 (World.start Sample.created)
      (Sample.transientOf "asset_value" Sample.value100) Sample.value100 ⟨"asset1", 100⟩
      "Org2MSP" rfl (by decide) (by decide) rfl (by decide)⟩

/-! ## C8, C9, C10: `CreateAsset` -/

/-- C8: when `CreateAsset` succeeds for the caller `c` on an input that
`json.Unmarshal` reads back from what `json.Marshal` wrote for it, a subsequent
`ReadAsset` at the input's id succeeds and returns the record with the owner `c`
and the type, id, color and size of the input. -/
theorem CreateAsset_then_ReadAsset (E : Env) (ctx : Ctx) (w : World)
    (transMap : String → Option Bytes) (payload : Bytes) (input : assetTransientInput)
    (c : String)
    (htr : ctx.transient = some transMap) (hpl : transMap "asset_properties" = some payload)
    (hdec : E.unmarshalAssetInput payload = some input)
    (hc : ctx.clientID = some c)
    (hjson : E.unmarshalAsset
        (E.marshalAsset ⟨input.Type_, input.ID, input.Color, input.Size, c⟩)
      = some ⟨input.Type_, input.ID, input.Color, input.Size, c⟩)
    (hok : (CreateAsset E ctx w).1 = .ok ()) :
    ReadAsset E (World.start (CreateAsset E ctx w).2.ledger) input.ID
      = .ok ⟨input.Type_, input.ID, input.Color, input.Size, c⟩ := by
  have hae := assetCollection_ne_empty
  rcases getCollectionName_fst ctx with h0 | ⟨o, _, _, h3⟩
  · exfalso
    simp only [CreateAsset, htr, hpl, hdec, hc, h0, PutPrivateData, GetPrivateData, hae,
      if_false] at hok
    split_ifs at hok
    all_goals (split at hok <;> simp at hok)
  · have hne := privateCollection_ne_empty o
    have hna := privateCollection_ne_assetCollection o
    simp only [CreateAsset, htr, hpl, hdec, hc, h3, PutPrivateData, GetPrivateData, hae, hne,
      if_false] at hok ⊢
    split_ifs at hok ⊢
    all_goals (split at hok <;> simp at hok)
    rename_i hnone
    simp at hnone
    simp [hnone, ReadAsset, GetPrivateData, hae, World.start, hna.symm, hjson]

/-- Witness of C8: `alice` creates `asset1` on the empty ledger. -/
theorem CreateAsset_then_ReadAsset_witness :
    (CreateAsset Sample.env Sample.aliceCreates (World.start Ledger.empty)).1 = .ok () ∧
    ReadAsset Sample.env
      (World.start (CreateAsset Sample.env Sample.aliceCreates (World.start Ledger.empty)).2.ledger)
      "asset1" = .ok ⟨"asset", "asset1", "blue", 10, "alice"⟩ :=
  ⟨by decide,
    CreateAsset_then_ReadAsset Sample.env Sample.aliceCreates (World.start Ledger.empty)
      (Sample.transientOf "asset_properties" Sample.assetProperties) Sample.assetProperties
      ⟨"asset", "asset1", "blue", 10, 100⟩ "alice" rfl (by decide) (by decide) rfl (by decide)
      (by decide)⟩

/-- C9: when the shared collection already holds a value at the id of an
otherwise valid create-asset input, `CreateAsset` fails with the conflict error
and leaves the world as it was: every collection unchanged, no write issued. -/
theorem CreateAsset_conflict (E : Env) (ctx : Ctx) (w : World)
    (transMap : String → Option Bytes) (payload : Bytes) (input : assetTransientInput)
    (v : Bytes)
    (htr : ctx.transient = some transMap) (hpl : transMap "asset_properties" = some payload)
    (hdec : E.unmarshalAssetInput payload = some input)
    (hType : input.Type_ ≠ "") (hID : input.ID ≠ "") (hColor : input.Color ≠ "")
    (hSize : 0 < input.Size) (hValue : 0 < input.AppraisedValue)
    (hex : w.ledger.priv assetCollection input.ID = some v) :
    ∃ e, CreateAsset E ctx w = (.error e, w) ∧ e.kind = .ConflictError := by
  refine ⟨.alreadyExists input.ID, ?_, rfl⟩
  simp [CreateAsset, htr, hpl, hdec, length_ne_zero_of_ne hType, length_ne_zero_of_ne hID,
    length_ne_zero_of_ne hColor, not_le.2 hSize, not_le.2 hValue, GetPrivateData,
    assetCollection_ne_empty, hex]

/-- Witness of C9: `alice` creates `asset1` a second time. -/
theorem CreateAsset_conflict_witness :
    ∃ e, CreateAsset Sample.env Sample.aliceCreates (World.start Sample.created)
        = (.error e, World.start Sample.created) ∧ e.kind = .ConflictError :=
  CreateAsset_conflict Sample.env Sample.aliceCreates (World.start Sample.created)
    (Sample.transientOf "asset_properties" Sample.assetProperties) Sample.assetProperties
    ⟨"asset", "asset1", "blue", 10, 100⟩ (Sample.sampleMarshalAsset (Sample.asset1 "alice"))
    rfl (by decide) (by decide) (by decide) (by decide) (by decide) (by decide) (by decide)
    (by decide)

/-- C10: for a decodable create-asset payload, `CreateAsset` fails with a
validation error exactly when the type, the id or the color is empty, or the
size or the appraised value is not positive; and it then returns that error on
every world, leaving it as it was (nothing read, nothing written). -/
theorem CreateAsset_validation (E : Env) (ctx : Ctx) (w : World)
    (transMap : String → Option Bytes) (payload : Bytes) (input : assetTransientInput)
    (htr : ctx.transient = some transMap) (hpl : transMap "asset_properties" = some payload)
    (hdec : E.unmarshalAssetInput payload = some input) :
    ((∃ e, (CreateAsset E ctx w).1 = .error e ∧ e.kind = .ValidationError) ↔
      (input.Type_ = "" ∨ input.ID = "" ∨ input.Color = "" ∨ input.Size ≤ 0 ∨
        input.AppraisedValue ≤ 0)) ∧
    ((input.Type_ = "" ∨ input.ID = "" ∨ input.Color = "" ∨ input.Size ≤ 0 ∨
        input.AppraisedValue ≤ 0) →
      ∃ e, e.kind = .ValidationError ∧ ∀ w' : World, CreateAsset E ctx w' = (.error e, w')) := by
  have key : (input.Type_ = "" ∨ input.ID = "" ∨ input.Color = "" ∨ input.Size ≤ 0 ∨
        input.AppraisedValue ≤ 0) →
      ∃ e, e.kind = .ValidationError ∧ ∀ w' : World, CreateAsset E ctx w' = (.error e, w') := by
    intro h
    by_cases hT : input.Type_.length = 0
    · exact ⟨.emptyField "type", rfl, fun w' => by simp [CreateAsset, htr, hpl, hdec, hT]⟩
    by_cases hI : input.ID.length = 0
    · exact ⟨.emptyField "asset_id", rfl, fun w' => by simp [CreateAsset, htr, hpl, hdec, hT, hI]⟩
    by_cases hC : input.Color.length = 0
    · exact ⟨.emptyField "color", rfl,
        fun w' => by simp [CreateAsset, htr, hpl, hdec, hT, hI, hC]⟩
    by_cases hS : input.Size ≤ 0
    · exact ⟨.notPositive "size", rfl,
        fun w' => by simp [CreateAsset, htr, hpl, hdec, hT, hI, hC, hS]⟩
    by_cases hA : input.AppraisedValue ≤ 0
    · exact ⟨.notPositive "AppraisedValue", rfl,
        fun w' => by simp [CreateAsset, htr, hpl, hdec, hT, hI, hC, hS, hA]⟩
    rw [length_eq_zero_iff] at hT hI hC
    tauto
  refine ⟨⟨?_, fun h => ?_⟩, key⟩
  · rintro ⟨e, he, hk⟩
    by_contra hcon
    simp only [not_or, ← length_eq_zero_iff] at hcon
    obtain ⟨hT, hI, hC, hS, hA⟩ := hcon
    simp only [CreateAsset, htr, hpl, hdec, hT, hI, hC, hS, hA, if_false] at he
    split at he
    · cases he; rename_i e' _; revert hk
      simp [GetPrivateData, assetCollection_ne_empty] at *
    · cases he; simp [Err.kind] at hk
    · split at he
      · cases he; simp [Err.kind] at hk
      · split at he
        · rename_i e' hput
          cases he
          simp only [PutPrivateData] at hput
          split_ifs at hput <;> cases hput <;> simp [Err.kind] at hk
        · split at he
          · rename_i e' hput
            cases he
            simp only [PutPrivateData] at hput
            split_ifs at hput <;> cases hput <;> simp [Err.kind] at hk
          · cases he
  · obtain ⟨e, hk, hall⟩ := key h
    exact ⟨e, by rw [hall w], hk⟩

/-- Witness of C10: a payload with an empty color. -/
theorem CreateAsset_validation_witness :
    ∃ e, e.kind = .ValidationError ∧
      ∀ w' : World, CreateAsset Sample.env Sample.aliceCreatesNoColor w' = (.error e, w') :=
  (CreateAsset_validation Sample.env Sample.aliceCreatesNoColor (World.start Ledger.empty)
    (Sample.transientOf "asset_properties" Sample.assetPropertiesNoColor)
    Sample.assetPropertiesNoColor ⟨"asset", "asset1", "", 10, 100⟩ rfl (by decide)
    (by decide)).2 (Or.inr (Or.inr (Or.inl rfl)))

/-! ## More helper facts -/

theorem append_right_cancel {a b s : String} (h : a ++ s = b ++ s) : a = b := by
  rw [String.ext_iff] at h ⊢
  simpa using h

theorem CreateCompositeKey_ok {objectType : String} {attributes : List String} {key : String}
    (h : CreateCompositeKey objectType attributes = .ok key) :
    key = compositeKey objectType attributes := by
  unfold CreateCompositeKey at h
  split_ifs at h
  split at h
  · cases h
  · cases h; rfl

theorem compositeKey_ne_empty (objectType : String) (att : String) :
    compositeKey objectType [att] ≠ "" := by
  intro h
  have := congrArg String.length h
  simp [compositeKey, String.length_append] at this
  have h1 : ("\x00" : String).length = 1 := rfl
  omega

theorem detailsCollection_ne_empty (o : String) : o ++ "DetailsCollection" ≠ "" := by
  intro h
  have := congrArg String.length h
  rw [String.length_append] at this
  have h17 : ("DetailsCollection" : String).length = 17 := rfl
  have h0 : ("" : String).length = 0 := rfl
  omega

theorem CreateCompositeKey_transferAgreement {assetID : String}
    (h : validateCompositeKeyAttribute assetID = true) :
    CreateCompositeKey "transferAgreement" [assetID]
      = .ok (compositeKey "transferAgreement" [assetID]) := by
  have h0 : validateCompositeKeyAttribute "transferAgreement" = true := by decide
  simp [CreateCompositeKey, h0, h]

theorem CreateAsset_ok_inv (E : Env) (ctx : Ctx) (w : World)
    (transMap : String → Option Bytes) (payload : Bytes) (input : assetTransientInput)
    (htr : ctx.transient = some transMap) (hpl : transMap "asset_properties" = some payload)
    (hdec : E.unmarshalAssetInput payload = some input)
    (hok : (CreateAsset E ctx w).1 = .ok ()) :
    ∃ c o w1 w2, ctx.clientID = some c ∧ ctx.clientMSPID = some o ∧ ctx.peerMSPID = some o ∧
      w.ledger.priv assetCollection input.ID = none ∧
      PutPrivateData w assetCollection input.ID
        (E.marshalAsset ⟨input.Type_, input.ID, input.Color, input.Size, c⟩) = .ok w1 ∧
      PutPrivateData w1 (o ++ "PrivateCollection") input.ID
        (E.marshalPrivateDetails ⟨input.ID, input.AppraisedValue⟩) = .ok w2 ∧
      (CreateAsset E ctx w).2 = w2 := by
  have hae := assetCollection_ne_empty
  simp only [CreateAsset, htr, hpl, hdec, GetPrivateData, hae, if_false] at hok ⊢
  split_ifs at hok ⊢
  cases hex : w.ledger.priv assetCollection input.ID with
  | some v => simp [hex] at hok
  | none =>
  cases hcid : ctx.clientID with
  | none => simp [hex, hcid] at hok
  | some c =>
  simp only [hex, hcid] at hok ⊢
  cases hp1 : PutPrivateData w assetCollection input.ID
      (E.marshalAsset ⟨input.Type_, input.ID, input.Color, input.Size, c⟩) with
  | error e => simp [hp1] at hok
  | ok w1 =>
  simp only [hp1] at hok ⊢
  rcases getCollectionName_fst ctx with h0 | ⟨o, h1, h2, h3⟩
  · simp [h0, PutPrivateData] at hok
  · simp only [h3] at hok ⊢
    cases hp2 : PutPrivateData w1 (o ++ "PrivateCollection") input.ID
        (E.marshalPrivateDetails ⟨input.ID, input.AppraisedValue⟩) with
    | error e => simp [hp2] at hok
    | ok w2 =>
      refine ⟨c, o, w1, w2, ?_, h1, h2, ?_, hp1, hp2, ?_⟩
      · rfl
      · trivial
      · simp [hp2]

theorem AgreeToTransfer_ok_inv (E : Env) (ctx : Ctx) (w : World)
    (transMap : String → Option Bytes) (b : Bytes) (value : AssetPrivateDetails)
    (htr : ctx.transient = some transMap) (hpl : transMap "asset_value" = some b)
    (hdec : E.unmarshalPrivateDetails b = some value)
    (hok : (AgreeToTransfer E ctx w).1 = .ok ()) :
    ∃ c o w1 w2, ctx.clientID = some c ∧ ctx.clientMSPID = some o ∧ ctx.peerMSPID = some o ∧
      PutPrivateData w (o ++ "PrivateCollection") value.ID b = .ok w1 ∧
      CreateCompositeKey "transferAgreement" [value.ID]
        = .ok (compositeKey "transferAgreement" [value.ID]) ∧
      PutPrivateData w1 assetCollection (compositeKey "transferAgreement" [value.ID]) c
        = .ok w2 ∧
      (AgreeToTransfer E ctx w).2 = w2 := by
  cases hcid : ctx.clientID with
  | none => simp [AgreeToTransfer, hcid] at hok
  | some c =>
  simp only [AgreeToTransfer, hcid, htr, hpl, hdec] at hok ⊢
  split_ifs at hok ⊢
  rcases getCollectionName_fst ctx with h0 | ⟨o, h1, h2, h3⟩
  · simp [h0, PutPrivateData] at hok
  · simp only [h3] at hok ⊢
    cases hp1 : PutPrivateData w (o ++ "PrivateCollection") value.ID b with
    | error e => simp [hp1] at hok
    | ok w1 =>
    simp only [hp1] at hok ⊢
    cases hck : CreateCompositeKey "transferAgreement" [value.ID] with
    | error e => simp [hck] at hok
    | ok key =>
    obtain rfl := CreateCompositeKey_ok hck
    simp only [hck] at hok ⊢
    cases hp2 : PutPrivateData w1 assetCollection
        (compositeKey "transferAgreement" [value.ID]) c with
    | error e => simp [hp2] at hok
    | ok w2 =>
      refine ⟨c, o, w1, w2, rfl, h1, h2, hp1, ?_, hp2, ?_⟩
      · trivial
      · simp [hp2]

theorem DeleteProposal_ok_inv (E : Env) (ctx : Ctx) (w : World)
    (transMap : String → Option Bytes) (payload : Bytes) (input : assetDelete)
    (htr : ctx.transient = some transMap) (hpl : transMap "agree_delete" = some payload)
    (hdec : E.unmarshalDelete payload = some input)
    (hok : (DeleteProposal E ctx w).1 = .ok ()) :
    ∃ o, ctx.clientMSPID = some o ∧ ctx.peerMSPID = some o ∧ input.ID ≠ "" ∧
      (DeleteProposal E ctx w).2 =
        { ledger :=
            { priv := fun c k =>
                if c = o ++ "PrivateCollection" ∧ k = input.ID then none
                else w.ledger.priv c k
              pub := fun k =>
                if k = compositeKey "transferAgreement" [input.ID] then none
                else w.ledger.pub k }
          writes := w.writes ++
            [.delPrivate (o ++ "PrivateCollection") input.ID,
             .delState (compositeKey "transferAgreement" [input.ID])] } := by
  simp only [DeleteProposal, htr, hpl, hdec] at hok ⊢
  split_ifs at hok ⊢ with hlen
  rcases getCollectionName_fst ctx with h0 | ⟨o, h1, h2, h3⟩
  · simp [h0, DelPrivateData] at hok
  · have hne := privateCollection_ne_empty o
    simp only [h3, DelPrivateData, hne, if_false] at hok ⊢
    cases hck : CreateCompositeKey "transferAgreement" [input.ID] with
    | error e => simp [hck] at hok
    | ok key =>
      obtain rfl := CreateCompositeKey_ok hck
      refine ⟨o, h1, h2, fun h => hlen (by rw [h]; rfl), ?_⟩
      simp [DelState]

theorem DeleteAsset_of_record (E : Env) (ctx : Ctx) (w : World)
    (transMap : String → Option Bytes) (payload : Bytes) (input : assetDelete)
    (v : Bytes) (asset : Asset)
    (htr : ctx.transient = some transMap) (hpl : transMap "asset_delete" = some payload)
    (hdec : E.unmarshalDelete payload = some input) (hID : input.ID ≠ "")
    (hrec : w.ledger.priv assetCollection input.ID = some v)
    (hasset : E.unmarshalAsset v = some asset) :
    DeleteAsset E ctx w =
      match DelPrivateData
          { ledger :=
              { w.ledger with
                priv := fun c k =>
                  if c = assetCollection ∧ k = input.ID then none else w.ledger.priv c k }
            writes := w.writes ++ [.delPrivate assetCollection input.ID] }
          (getCollectionName ctx).1 input.ID with
      | .error e =>
        (.error e,
          { ledger :=
              { w.ledger with
                priv := fun c k =>
                  if c = assetCollection ∧ k = input.ID then none else w.ledger.priv c k }
            writes := w.writes ++ [.delPrivate assetCollection input.ID] })
      | .ok w2 => (.ok (), w2) := by
  simp only [DeleteAsset, htr, hpl, hdec, length_ne_zero_of_ne hID, GetPrivateData,
    assetCollection_ne_empty, hrec, hasset, DelPrivateData, if_false]

/-! ## C11: the private details written by `CreateAsset` -/

/-- C11: when `CreateAsset` succeeds for a caller of org `o` on an input whose
private details `json.Unmarshal` reads back from what `json.Marshal` wrote,
`ReadAssetPrivateDetails` on `o ++ "PrivateCollection"` at the input's id returns
the id and the appraised value of the input, and the private collection of every
other org is as it was. -/
theorem CreateAsset_private_details (E : Env) (ctx : Ctx) (w : World)
    (transMap : String → Option Bytes) (payload : Bytes) (input : assetTransientInput)
    (o : String)
    (htr : ctx.transient = some transMap) (hpl : transMap "asset_properties" = some payload)
    (hdec : E.unmarshalAssetInput payload = some input)
    (hmsp : ctx.clientMSPID = some o)
    (hjson : E.unmarshalPrivateDetails
        (E.marshalPrivateDetails ⟨input.ID, input.AppraisedValue⟩)
      = some ⟨input.ID, input.AppraisedValue⟩)
    (hok : (CreateAsset E ctx w).1 = .ok ()) :
    ReadAssetPrivateDetails E (World.start (CreateAsset E ctx w).2.ledger)
        (o ++ "PrivateCollection") input.ID
      = .ok ⟨input.ID, input.AppraisedValue⟩ ∧
    (∀ o' key, o' ≠ o →
      (CreateAsset E ctx w).2.ledger.priv (o' ++ "PrivateCollection") key
        = w.ledger.priv (o' ++ "PrivateCollection") key) := by
  obtain ⟨c, o₁, w1, w2, -, h1, -, -, hp1, hp2, hw⟩ :=
    CreateAsset_ok_inv E ctx w transMap payload input htr hpl hdec hok
  have ho : o₁ = o := by rw [hmsp] at h1; exact (Option.some.inj h1).symm
  subst ho
  have hne := privateCollection_ne_empty o₁
  rw [hw]
  simp only [PutPrivateData, assetCollection_ne_empty, hne, if_false] at hp1 hp2
  split_ifs at hp1 hp2
  cases hp1
  cases hp2
  refine ⟨?_, ?_⟩
  · simp [ReadAssetPrivateDetails, GetPrivateData, hne, World.start, hjson]
  · intro o' key ho'
    have h1 : o' ++ "PrivateCollection" ≠ o₁ ++ "PrivateCollection" :=
      fun h => ho' (append_right_cancel h)
    have h2 := privateCollection_ne_assetCollection o'
    simp [h1, h2]

/-- Witness of C11: `alice` of `Org1MSP` creates `asset1` on the empty ledger. -/
theorem CreateAsset_private_details_witness :
    (CreateAsset Sample.env Sample.aliceCreates (World.start Ledger.empty)).1 = .ok () ∧
    ReadAssetPrivateDetails Sample.env
      (World.start (CreateAsset Sample.env Sample.aliceCreates (World.start Ledger.empty)).2.ledger)
      ("Org1MSP" ++ "PrivateCollection") "asset1" = .ok ⟨"asset1", 100⟩ :=
  ⟨by decide,
    (CreateAsset_private_details Sample.env Sample.aliceCreates (World.start Ledger.empty)
      (Sample.transientOf "asset_properties" Sample.assetProperties) Sample.assetProperties
      ⟨"asset", "asset1", "blue", 10, 100⟩ "Org1MSP" rfl (by decide) (by decide) rfl (by decide)
      (by decide)).1⟩

/-! ## C12, C14: `AgreeToTransfer` -/

/-- C12: whatever the state, `AgreeToTransfer` fails and leaves the world as it
was (no write issued) when the `asset_value` payload does not decode, decodes to
an empty asset id, or decodes to an appraised value that is not positive; and
when it succeeds for a caller of org `o`, the writes it issued are the payload as
received at the decoded id in `o ++ "PrivateCollection"` and the caller's identity
at the `transferAgreement` key: the decoded value is never encoded again. -/
theorem AgreeToTransfer_validates_and_stores_payload (E : Env) (ctx : Ctx) (w : World)
    (transMap : String → Option Bytes) (b : Bytes)
    (htr : ctx.transient = some transMap) (hpl : transMap "asset_value" = some b) :
    (E.unmarshalPrivateDetails b = none → ∃ e, AgreeToTransfer E ctx w = (.error e, w)) ∧
    (∀ value, E.unmarshalPrivateDetails b = some value → value.ID = "" →
      ∃ e, AgreeToTransfer E ctx w = (.error e, w)) ∧
    (∀ value, E.unmarshalPrivateDetails b = some value → value.AppraisedValue ≤ 0 →
      ∃ e, AgreeToTransfer E ctx w = (.error e, w)) ∧
    (∀ value o, E.unmarshalPrivateDetails b = some value → ctx.clientMSPID = some o →
      (AgreeToTransfer E ctx w).1 = .ok () →
      ∃ c, ctx.clientID = some c ∧
        (AgreeToTransfer E ctx w).2.writes = w.writes ++
          [.putPrivate (o ++ "PrivateCollection") value.ID b,
           .putPrivate assetCollection (compositeKey "transferAgreement" [value.ID]) c]) := by
  refine ⟨?_, ?_, ?_, ?_⟩
  · intro hdec
    cases hcid : ctx.clientID <;> simp [AgreeToTransfer, hcid, htr, hpl, hdec]
  · intro value hdec hID
    cases hcid : ctx.clientID <;> simp [AgreeToTransfer, hcid, htr, hpl, hdec, hID]
  · intro value hdec hval
    cases hcid : ctx.clientID <;> simp [AgreeToTransfer, hcid, htr, hpl, hdec, hval]
    split_ifs <;> simp
  · intro value o hdec hmsp hok
    obtain ⟨c, o₁, w1, w2, hc, h1, -, hp1, -, hp2, hw⟩ :=
      AgreeToTransfer_ok_inv E ctx w transMap b value htr hpl hdec hok
    have ho : o₁ = o := by rw [hmsp] at h1; exact (Option.some.inj h1).symm
    subst ho
    refine ⟨c, hc, ?_⟩
    rw [hw]
    simp only [PutPrivateData] at hp1 hp2
    split_ifs at hp1 hp2
    cases hp1
    cases hp2
    simp

/-- Witness of C12: `bob` agrees with a payload whose fields come in another
order than `json.Marshal` writes them; the bytes written are the payload. -/
theorem AgreeToTransfer_validates_and_stores_payload_witness :
    Sample.env.marshalPrivateDetails ⟨"asset1", 100⟩ ≠ Sample.value100Reordered ∧
    ∃ c, Sample.bobAgrees100Reordered.clientID = some c ∧
      (AgreeToTransfer Sample.env Sample.bobAgrees100Reordered
          (World.start Sample.created)).2.writes
        = (World.start Sample.created).writes ++
          [.putPrivate ("Org2MSP" ++ "PrivateCollection") "asset1" Sample.value100Reordered,
           .putPrivate assetCollection (compositeKey "transferAgreement" ["asset1"]) c] :=
  ⟨by decide,
    (AgreeToTransfer_validates_and_stores_payload Sample.env Sample.bobAgrees100Reordered
      (World.start Sample.created)
      (Sample.transientOf "asset_value" Sample.value100Reordered) Sample.value100Reordered
      rfl (by decide)).2.2.2 ⟨"asset1", 100⟩ "Org2MSP" (by decide) rfl (by decide)⟩

/-- C14: whatever the state, with or without an agreement for the id, after
`AgreeToTransfer` succeeds for the caller `c`, `ReadTransferAgreement` at the
payload's id returns the identity `c`; the state may be the one an earlier
`AgreeToTransfer` of another caller left, whose identity is then replaced. -/
theorem AgreeToTransfer_then_ReadTransferAgreement (E : Env) (ctx : Ctx) (w : World)
    (transMap : String → Option Bytes) (b : Bytes) (value : AssetPrivateDetails) (c : String)
    (htr : ctx.transient = some transMap) (hpl : transMap "asset_value" = some b)
    (hdec : E.unmarshalPrivateDetails b = some value)
    (hc : ctx.clientID = some c)
    (hok : (AgreeToTransfer E ctx w).1 = .ok ()) :
    ReadTransferAgreement (World.start (AgreeToTransfer E ctx w).2.ledger) value.ID
      = (c, none) := by
  obtain ⟨c₁, o, w1, w2, hc₁, -, -, -, hck, hp2, hw⟩ :=
    AgreeToTransfer_ok_inv E ctx w transMap b value htr hpl hdec hok
  have hcc : c₁ = c := by rw [hc] at hc₁; exact (Option.some.inj hc₁).symm
  subst hcc
  rw [hw]
  simp only [PutPrivateData] at hp2
  split_ifs at hp2
  cases hp2
  simp [ReadTransferAgreement, hck, GetPrivateData, assetCollection_ne_empty, World.start]

/-- Witness of C14: `bob` agreed first, then `carol` agrees; the agreement record
then holds `carol`. -/
theorem AgreeToTransfer_then_ReadTransferAgreement_witness :
    ReadTransferAgreement (World.start Sample.agreed) "asset1" = ("bob", none) ∧
    (AgreeToTransfer Sample.env Sample.carolAgrees100 (World.start Sample.agreed)).1 = .ok () ∧
    ReadTransferAgreement
      (World.start
        (AgreeToTransfer Sample.env Sample.carolAgrees100 (World.start Sample.agreed)).2.ledger)
      "asset1" = ("carol", none) :=
  ⟨by decide, by decide,
    AgreeToTransfer_then_ReadTransferAgreement Sample.env Sample.carolAgrees100
      (World.start Sample.agreed) (Sample.transientOf "asset_value" Sample.value100)
      Sample.value100 ⟨"asset1", 100⟩ "carol" rfl (by decide) (by decide) rfl (by decide)⟩

/-! ## C13: `AgreeToPrice` of the variant -/

/-- C13 (counterexample): the sample `json.Unmarshal` rejects the payload, and
`AgreeToPrice` of `privateAssetTransfer.go` still succeeds and writes it. -/
theorem AgreeToPrice_accepts_undecodable_payload :
    Sample.env.unmarshalPrivateDetails Sample.notJSON = none ∧
    (Variant.AgreeToPrice Sample.bobAgreesPrice (World.start Sample.created) "asset1").1
      = .ok () ∧
    (Variant.AgreeToPrice Sample.bobAgreesPrice (World.start Sample.created) "asset1").2.writes
      = [.putPrivate "Org2MSPDetailsCollection" "asset1" Sample.notJSON,
         .putPrivate assetCollection (compositeKey "transferAgreement" ["asset1"]) "bob"] := by
  decide

/-- C13 (amended): `AgreeToPrice` does not decode the payload.  It fails and
leaves the world as it was when the transient map has no `asset_price` entry or
the asset id argument is empty; and for a caller with an identity and an org `o`,
a non-empty asset id that passes the composite-key check and any payload, it
succeeds and stores the payload as received at the asset id in
`o ++ "DetailsCollection"`. -/
theorem AgreeToPrice_stores_any_payload (ctx : Ctx) (w : World) (assetID : String)
    (transMap : String → Option Bytes) (htr : ctx.transient = some transMap) :
    (transMap "asset_price" = none →
      ∃ e, Variant.AgreeToPrice ctx w assetID = (.error e, w)) ∧
    (assetID = "" → ∃ e, Variant.AgreeToPrice ctx w assetID = (.error e, w)) ∧
    (∀ b c o, transMap "asset_price" = some b → ctx.clientID = some c →
      ctx.clientMSPID = some o → assetID ≠ "" → validateCompositeKeyAttribute assetID = true →
      (Variant.AgreeToPrice ctx w assetID).1 = .ok () ∧
      (Variant.AgreeToPrice ctx w assetID).2.writes = w.writes ++
        [.putPrivate (o ++ "DetailsCollection") assetID b,
         .putPrivate assetCollection (compositeKey "transferAgreement" [assetID]) c] ∧
      (Variant.AgreeToPrice ctx w assetID).2.ledger.priv (o ++ "DetailsCollection") assetID
        = some b) := by
  refine ⟨?_, ?_, ?_⟩
  · intro hnone
    cases hcid : ctx.clientID <;> simp [Variant.AgreeToPrice, hcid, htr, hnone]
  · intro hID
    subst hID
    cases hcid : ctx.clientID with
    | none => simp [Variant.AgreeToPrice, hcid]
    | some c =>
      cases hpl : transMap "asset_price" with
      | none => simp [Variant.AgreeToPrice, hcid, htr, hpl]
      | some b =>
        simp only [Variant.AgreeToPrice, hcid, htr, hpl, PutPrivateData, if_true]
        split_ifs <;> simp
  · intro b c o hpl hc hmsp hID hvalid
    have hcoll : (Variant.getCollectionName ctx).1 = o ++ "DetailsCollection" := by
      simp [Variant.getCollectionName, hmsp]
    have hna : o ++ "DetailsCollection" ≠ assetCollection := by
      intro h
      have := congrArg String.length h
      rw [String.length_append] at this
      have h17 : ("DetailsCollection" : String).length = 17 := rfl
      have h15 : assetCollection.length = 15 := rfl
      omega
    simp [Variant.AgreeToPrice, hc, htr, hpl, hcoll, PutPrivateData, detailsCollection_ne_empty,
      hID, CreateCompositeKey_transferAgreement hvalid, assetCollection_ne_empty,
      compositeKey_ne_empty, hna]

/-- Witness of C13 (amended): `bob` agrees with a price that is not JSON. -/
theorem AgreeToPrice_stores_any_payload_witness :
    (Variant.AgreeToPrice Sample.bobAgreesPrice (World.start Sample.created) "asset1").1
        = .ok () ∧
      (Variant.AgreeToPrice Sample.bobAgreesPrice (World.start Sample.created) "asset1").2.writes
        = (World.start Sample.created).writes ++
          [.putPrivate ("Org2MSP" ++ "DetailsCollection") "asset1" Sample.notJSON,
           .putPrivate assetCollection (compositeKey "transferAgreement" ["asset1"]) "bob"] ∧
      (Variant.AgreeToPrice Sample.bobAgreesPrice
          (World.start Sample.created) "asset1").2.ledger.priv
        ("Org2MSP" ++ "DetailsCollection") "asset1" = some Sample.notJSON :=
  (AgreeToPrice_stores_any_payload Sample.bobAgreesPrice (World.start Sample.created) "asset1"
    (Sample.transientOf "asset_price" Sample.notJSON) rfl).2.2 Sample.notJSON "bob" "Org2MSP"
    (by decide) rfl rfl (by decide) (by decide)

/-! ## C15, C16, C17: `DeleteProposal` -/

/-- C15 (code at the failing input): `bob` agreed to buy `asset1` and withdraws.
`DeleteProposal` succeeds and deletes his commitment, but it deletes the
agreement key with `DelState`, from the public state: the record `AgreeToTransfer`
wrote to `assetCollection` is still there and `ReadTransferAgreement` still
returns `bob`. -/
theorem DeleteProposal_leaves_agreement :
    ReadTransferAgreement (World.start Sample.agreed) "asset1" = ("bob", none) ∧
    (DeleteProposal Sample.env Sample.bobWithdraws (World.start Sample.agreed)).1 = .ok () ∧
    (DeleteProposal Sample.env Sample.bobWithdraws (World.start Sample.agreed)).2.writes
      = [.delPrivate "Org2MSPPrivateCollection" "asset1",
         .delState (compositeKey "transferAgreement" ["asset1"])] ∧
    Sample.withdrawn.priv "Org2MSPPrivateCollection" "asset1" = none ∧
    Sample.withdrawn.priv assetCollection (compositeKey "transferAgreement" ["asset1"])
      = some "bob" ∧
    ReadTransferAgreement (World.start Sample.withdrawn) "asset1" = ("bob", none) := by
  decide

/-- C16 (counterexample): after `bob` withdrew his proposal, the owner `alice`
sends her transfer to a peer of `Org2MSP`; it fails with the stub's error for the
empty collection name, which is not the not-found error. -/
theorem TransferAsset_after_DeleteProposal_on_foreign_peer :
    (DeleteProposal Sample.env Sample.bobWithdraws (World.start Sample.agreed)).1 = .ok () ∧
    ReadAsset Sample.env (World.start Sample.withdrawn) "asset1"
      = .ok (Sample.asset1 "alice") ∧
    Sample.aliceOnOrg2PeerTransfers.clientID = some "alice" ∧
    (TransferAsset Sample.env Sample.aliceOnOrg2PeerTransfers (World.start Sample.withdrawn)).1
      = .error (.wrapped "failed transfer verification"
          (.wrapped "failed to hash of appraised value from owners collection"
            .emptyCollection)) ∧
    (Err.wrapped "failed transfer verification"
      (.wrapped "failed to hash of appraised value from owners collection"
        .emptyCollection)).kind ≠ .NotFoundError := by
  decide

/-- C16 (amended): in a state where the asset at the id exists, after the
successful `DeleteProposal` for that id of a buyer of org `B`, `TransferAsset` by
the owner, on a peer of the owner's own org and with the buyer org `B`, fails with the
not-found error, issues no write, and the asset record is what it was. -/
theorem TransferAsset_after_DeleteProposal (E : Env) (buyerCtx ownerCtx : Ctx) (w : World)
    (buyerMap : String → Option Bytes) (buyerPayload : Bytes) (proposal : assetDelete)
    (ownerMap : String → Option Bytes) (ownerPayload : Bytes)
    (input : assetTransferTransientInput) (asset : Asset) (o B : String)
    (htrB : buyerCtx.transient = some buyerMap)
    (hplB : buyerMap "agree_delete" = some buyerPayload)
    (hdecB : E.unmarshalDelete buyerPayload = some proposal)
    (hB : buyerCtx.clientMSPID = some B)
    (hokB : (DeleteProposal E buyerCtx w).1 = .ok ())
    (htrA : ownerCtx.transient = some ownerMap)
    (hplA : ownerMap "asset_owner" = some ownerPayload)
    (hdecA : E.unmarshalTransferInput ownerPayload = some input)
    (hID : input.ID = proposal.ID) (hbuyer : input.BuyerMSP = B) (hBne : B ≠ "")
    (hasset : ReadAsset E w input.ID = .ok asset)
    (hc : ownerCtx.clientID = some asset.Owner)
    (hmsp : ownerCtx.clientMSPID = some o) (hpeer : ownerCtx.peerMSPID = some o) :
    ∃ e, TransferAsset E ownerCtx (World.start (DeleteProposal E buyerCtx w).2.ledger)
        = (.error e, World.start (DeleteProposal E buyerCtx w).2.ledger) ∧
      e.kind = .NotFoundError ∧
      ReadAsset E (World.start (DeleteProposal E buyerCtx w).2.ledger) input.ID = .ok asset := by
  obtain ⟨B₁, hB₁, -, hne, hw⟩ :=
    DeleteProposal_ok_inv E buyerCtx w buyerMap buyerPayload proposal htrB hplB hdecB hokB
  have hBB : B₁ = B := by rw [hB] at hB₁; exact (Option.some.inj hB₁).symm
  subst hBB
  subst hbuyer
  have hna := privateCollection_ne_assetCollection input.BuyerMSP
  have hread : ReadAsset E (World.start (DeleteProposal E buyerCtx w).2.ledger) input.ID
      = .ok asset := by
    rw [hw, ← hasset]
    simp [ReadAsset, GetPrivateData, World.start, hna.symm]
  have hnone : GetPrivateDataHash E (World.start (DeleteProposal E buyerCtx w).2.ledger)
      (input.BuyerMSP ++ "PrivateCollection") input.ID = .ok none := by
    rw [hw]
    simp [GetPrivateDataHash, privateCollection_ne_empty, World.start, hID]
  have hcoll := getCollectionName_of_same_org ownerCtx o hmsp hpeer
  have hIDne : ¬ input.ID.length = 0 := by rw [hID]; exact length_ne_zero_of_ne hne
  have hver : ∃ e, verifyAgreement E ownerCtx
      (World.start (DeleteProposal E buyerCtx w).2.ledger) input.ID asset.Owner input.BuyerMSP
        = .error e ∧ e.kind = .NotFoundError := by
    have hown : GetPrivateDataHash E (World.start (DeleteProposal E buyerCtx w).2.ledger)
        (o ++ "PrivateCollection") input.ID
        = .ok (((DeleteProposal E buyerCtx w).2.ledger.priv (o ++ "PrivateCollection")
            input.ID).map E.hash) := by
      simp [GetPrivateDataHash, privateCollection_ne_empty, World.start]
    simp only [verifyAgreement, hc, hcoll, hown, hnone, ne_eq, not_true_eq_false, if_false]
    cases (DeleteProposal E buyerCtx w).2.ledger.priv (o ++ "PrivateCollection") input.ID <;>
      simp [Err.kind]
  obtain ⟨e, he, hk⟩ := hver
  refine ⟨.wrapped "failed transfer verification" e, ?_, hk, hread⟩
  simp [TransferAsset, htrA, hplA, hdecA, hIDne, length_ne_zero_of_ne hBne, hread, he]

/-- Witness of C16 (amended): `bob` withdraws, then `alice` tries the transfer. -/
theorem TransferAsset_after_DeleteProposal_witness :
    ∃ e, TransferAsset Sample.env Sample.aliceTransfersToOrg2
        (World.start
          (DeleteProposal Sample.env Sample.bobWithdraws (World.start Sample.agreed)).2.ledger)
        = (.error e, World.start
          (DeleteProposal Sample.env Sample.bobWithdraws (World.start Sample.agreed)).2.ledger) ∧
      e.kind = .NotFoundError ∧
      ReadAsset Sample.env
        (World.start
          (DeleteProposal Sample.env Sample.bobWithdraws (World.start Sample.agreed)).2.ledger)
        "asset1" = .ok (Sample.asset1 "alice") :=
  TransferAsset_after_DeleteProposal Sample.env Sample.bobWithdraws Sample.aliceTransfersToOrg2
    (World.start Sample.agreed) (Sample.transientOf "agree_delete" Sample.deleteAsset1)
    Sample.deleteAsset1 ⟨"asset1"⟩ (Sample.transientOf "asset_owner" Sample.toOrg2)
    Sample.toOrg2 ⟨"asset1", "Org2MSP"⟩ (Sample.asset1 "alice") "Org1MSP" "Org2MSP"
    rfl (by decide) (by decide) rfl (by decide) rfl (by decide) (by decide) rfl rfl
    (by decide) (by decide) rfl rfl rfl

/-- C17: `DeleteProposal` run a second time, on the ledger the first run left,
returns the same result and leaves the same ledger as the first run; the same
holds for the committed ledgers of two successive invocations. -/
theorem DeleteProposal_idempotent (E : Env) (ctx : Ctx) (l : Ledger) :
    (DeleteProposal E ctx (World.start (DeleteProposal E ctx (World.start l)).2.ledger)).1
      = (DeleteProposal E ctx (World.start l)).1 ∧
    (DeleteProposal E ctx (World.start (DeleteProposal E ctx (World.start l)).2.ledger)).2.ledger
      = (DeleteProposal E ctx (World.start l)).2.ledger ∧
    invoke E (invoke E l (.DeleteProposal, ctx)) (.DeleteProposal, ctx)
      = invoke E l (.DeleteProposal, ctx) := by
  cases htr : ctx.transient with
  | none => simp [DeleteProposal, htr, invoke, Op.run, World.start]
  | some transMap =>
  cases hpl : transMap "agree_delete" with
  | none => simp [DeleteProposal, htr, hpl, invoke, Op.run, World.start]
  | some payload =>
  cases hdec : E.unmarshalDelete payload with
  | none => simp [DeleteProposal, htr, hpl, hdec, invoke, Op.run, World.start]
  | some input =>
  by_cases hlen : input.ID.length = 0
  · simp [DeleteProposal, htr, hpl, hdec, hlen, invoke, Op.run, World.start]
  by_cases hcoll : (getCollectionName ctx).1 = ""
  · simp [DeleteProposal, htr, hpl, hdec, hlen, hcoll, DelPrivateData, invoke, Op.run,
      World.start]
  cases hck : CreateCompositeKey "transferAgreement" [input.ID] with
  | error e =>
    simp only [DeleteProposal, htr, hpl, hdec, hlen, hcoll, DelPrivateData, hck, invoke, Op.run,
      World.start, if_false, true_and]
    refine ⟨?_, trivial⟩
    congr 1
    funext c k
    split_ifs <;> rfl
  | ok key =>
    simp only [DeleteProposal, htr, hpl, hdec, hlen, hcoll, DelPrivateData, hck, invoke, Op.run,
      World.start, if_false, true_and, DelState]
    have : ∀ l' : Ledger,
        ({ priv := fun c k => if c = (getCollectionName ctx).1 ∧ k = input.ID then none
              else (if c = (getCollectionName ctx).1 ∧ k = input.ID then none else l'.priv c k)
           pub := fun k => if k = key then none else (if k = key then none else l'.pub k) }
          : Ledger)
        = { priv := fun c k => if c = (getCollectionName ctx).1 ∧ k = input.ID then none
              else l'.priv c k
            pub := fun k => if k = key then none else l'.pub k } := by
      intro l'
      congr 1
      · funext c k; split_ifs <;> rfl
      · funext k; split_ifs <;> rfl
    exact ⟨this l, this l⟩

/-! ## C18, C19: `DeleteAsset` -/

/-- C18: for a valid delete input, `DeleteAsset` fails with the not-found error
and leaves the world as it was when nothing is stored at the id in the shared
collection; and when it succeeds for a caller of org `o`, nothing is stored any
more at the id in the shared collection nor in `o ++ "PrivateCollection"`. -/
theorem DeleteAsset_spec (E : Env) (ctx : Ctx) (w : World)
    (transMap : String → Option Bytes) (payload : Bytes) (input : assetDelete)
    (htr : ctx.transient = some transMap) (hpl : transMap "asset_delete" = some payload)
    (hdec : E.unmarshalDelete payload = some input) (hID : input.ID ≠ "") :
    (w.ledger.priv assetCollection input.ID = none →
      ∃ e, DeleteAsset E ctx w = (.error e, w) ∧ e.kind = .NotFoundError) ∧
    (∀ o, ctx.clientMSPID = some o → (DeleteAsset E ctx w).1 = .ok () →
      (DeleteAsset E ctx w).2.ledger.priv assetCollection input.ID = none ∧
      (DeleteAsset E ctx w).2.ledger.priv (o ++ "PrivateCollection") input.ID = none) := by
  refine ⟨fun hnone => ⟨.doesNotExist input.ID, ?_, rfl⟩, ?_⟩
  · simp [DeleteAsset, htr, hpl, hdec, length_ne_zero_of_ne hID, GetPrivateData,
      assetCollection_ne_empty, hnone]
  · intro o hmsp hok
    cases hrec : w.ledger.priv assetCollection input.ID with
    | none =>
      simp [DeleteAsset, htr, hpl, hdec, length_ne_zero_of_ne hID, GetPrivateData,
        assetCollection_ne_empty, hrec] at hok
    | some v =>
    cases hasset : E.unmarshalAsset v with
    | none =>
      simp [DeleteAsset, htr, hpl, hdec, length_ne_zero_of_ne hID, GetPrivateData,
        assetCollection_ne_empty, hrec, hasset] at hok
    | some asset =>
    rw [DeleteAsset_of_record E ctx w transMap payload input v asset htr hpl hdec hID hrec
      hasset] at hok ⊢
    rcases getCollectionName_fst ctx with h0 | ⟨o₁, h1, -, h3⟩
    · simp [h0, DelPrivateData] at hok
    · have ho : o₁ = o := by rw [hmsp] at h1; exact (Option.some.inj h1).symm
      subst ho
      simp [h3, DelPrivateData, privateCollection_ne_empty]

/-- Witness of C18: `alice` deletes `asset1`. -/
theorem DeleteAsset_spec_witness :
    (DeleteAsset Sample.env Sample.aliceDeletes (World.start Sample.created)).1 = .ok () ∧
    (DeleteAsset Sample.env Sample.aliceDeletes (World.start Sample.created)).2.ledger.priv
      assetCollection "asset1" = none ∧
    (DeleteAsset Sample.env Sample.aliceDeletes (World.start Sample.created)).2.ledger.priv
      ("Org1MSP" ++ "PrivateCollection") "asset1" = none :=
  ⟨by decide,
    (DeleteAsset_spec Sample.env Sample.aliceDeletes (World.start Sample.created)
      (Sample.transientOf "asset_delete" Sample.deleteAsset1) Sample.deleteAsset1 ⟨"asset1"⟩
      rfl (by decide) (by decide) (by decide)).2 "Org1MSP" rfl (by decide)⟩

/-- C19 (counterexample): `bob`, who does not own `asset1`, sends `DeleteAsset` to a
peer of `Org1MSP`; the asset record is there and decodes, and the call fails. -/
theorem DeleteAsset_by_other_on_foreign_peer :
    Sample.created.priv assetCollection "asset1"
      = some (Sample.sampleMarshalAsset (Sample.asset1 "alice")) ∧
    Sample.env.unmarshalAsset (Sample.sampleMarshalAsset (Sample.asset1 "alice"))
      = some (Sample.asset1 "alice") ∧
    Sample.bobOnOrg1PeerDeletes.clientID = some "bob" ∧
    (DeleteAsset Sample.env Sample.bobOnOrg1PeerDeletes (World.start Sample.created)).1
      = .error .emptyCollection := by
  decide

/-- C19 (amended): on a peer of the caller's own org, for a valid delete input and
a decodable asset record at its id, `DeleteAsset` succeeds and deletes the record
from the shared collection, whoever the caller and whoever the recorded owner:
neither the hypotheses nor the writes mention them, and replacing the caller's
identity by any other does not change the outcome. -/
theorem DeleteAsset_no_owner_check (E : Env) (ctx : Ctx) (w : World)
    (transMap : String → Option Bytes) (payload : Bytes) (input : assetDelete)
    (v : Bytes) (asset : Asset) (o : String)
    (htr : ctx.transient = some transMap) (hpl : transMap "asset_delete" = some payload)
    (hdec : E.unmarshalDelete payload = some input) (hID : input.ID ≠ "")
    (hrec : w.ledger.priv assetCollection input.ID = some v)
    (hasset : E.unmarshalAsset v = some asset)
    (hmsp : ctx.clientMSPID = some o) (hpeer : ctx.peerMSPID = some o) :
    (DeleteAsset E ctx w).1 = .ok () ∧
    (DeleteAsset E ctx w).2.ledger.priv assetCollection input.ID = none ∧
    (DeleteAsset E ctx w).2.writes = w.writes ++
      [.delPrivate assetCollection input.ID,
       .delPrivate (o ++ "PrivateCollection") input.ID] ∧
    (∀ c : Option String, DeleteAsset E { ctx with clientID := c } w = DeleteAsset E ctx w) := by
  have hcoll := getCollectionName_of_same_org ctx o hmsp hpeer
  refine ⟨?_, ?_, ?_, ?_⟩
  · rw [DeleteAsset_of_record E ctx w transMap payload input v asset htr hpl hdec hID hrec
      hasset]
    simp [hcoll, DelPrivateData, privateCollection_ne_empty]
  · rw [DeleteAsset_of_record E ctx w transMap payload input v asset htr hpl hdec hID hrec
      hasset]
    simp [hcoll, DelPrivateData, privateCollection_ne_empty]
  · rw [DeleteAsset_of_record E ctx w transMap payload input v asset htr hpl hdec hID hrec
      hasset]
    simp [hcoll, DelPrivateData, privateCollection_ne_empty]
  · intro c
    rfl

/-- Witness of C19 (amended): `bob` deletes the asset `alice` owns. -/
theorem DeleteAsset_no_owner_check_witness :
    Sample.bobDeletes.clientID ≠ some (Sample.asset1 "alice").Owner ∧
    (DeleteAsset Sample.env Sample.bobDeletes (World.start Sample.created)).1 = .ok () ∧
    (DeleteAsset Sample.env Sample.bobDeletes (World.start Sample.created)).2.ledger.priv
      assetCollection "asset1" = none :=
  ⟨by decide,
    (DeleteAsset_no_owner_check Sample.env Sample.bobDeletes (World.start Sample.created)
      (Sample.transientOf "asset_delete" Sample.deleteAsset1) Sample.deleteAsset1 ⟨"asset1"⟩
      (Sample.sampleMarshalAsset (Sample.asset1 "alice")) (Sample.asset1 "alice") "Org2MSP"
      rfl (by decide) (by decide) (by decide) (by decide) (by decide) rfl rfl).1,
    (DeleteAsset_no_owner_check Sample.env Sample.bobDeletes (World.start Sample.created)
      (Sample.transientOf "asset_delete" Sample.deleteAsset1) Sample.deleteAsset1 ⟨"asset1"⟩
      (Sample.sampleMarshalAsset (Sample.asset1 "alice")) (Sample.asset1 "alice") "Org2MSP"
      rfl (by decide) (by decide) (by decide) (by decide) (by decide) rfl rfl).2.1⟩

/-! ## C20: `getCollectionName` -/

/-- C20: `getCollectionName` returns a name without error exactly when the caller's
org id and the peer's org id are both available and equal, and the name is then
the org id followed by `PrivateCollection`; it returns the identity error when
one of the two ids is unavailable and the authorization error when they differ. -/
theorem getCollectionName_spec (ctx : Ctx) :
    (∀ name, getCollectionName ctx = (name, none) ↔
      ∃ o, ctx.clientMSPID = some o ∧ ctx.peerMSPID = some o ∧
        name = o ++ "PrivateCollection") ∧
    ((ctx.clientMSPID = none ∨ ctx.peerMSPID = none) →
      ∃ e, getCollectionName ctx = ("", some e) ∧ e.kind = .IdentityError) ∧
    (∀ c p, ctx.clientMSPID = some c → ctx.peerMSPID = some p → c ≠ p →
      ∃ e, getCollectionName ctx = ("", some e) ∧ e.kind = .AuthorizationError) := by
  unfold getCollectionName
  cases h1 : ctx.clientMSPID with
  | none => simp [Err.kind]
  | some c =>
    cases h2 : ctx.peerMSPID with
    | none => simp [Err.kind]
    | some p =>
      by_cases h : c = p
      · subst h
        simp
        intro name
        constructor
        · intro h; exact h.symm
        · intro h; exact h.symm
      · simp [h, Err.kind]
        exact fun hp => h hp.symm

/-- Witness of C20: `alice` of `Org1MSP` on a peer of `Org1MSP`. -/
theorem getCollectionName_spec_witness :
    getCollectionName Sample.aliceCreates = ("Org1MSPPrivateCollection", none) :=
  ((getCollectionName_spec Sample.aliceCreates).1 "Org1MSPPrivateCollection").2
    ⟨"Org1MSP", rfl, rfl, by decide⟩

/-! ## Helper facts for `TransferAsset` -/

theorem compositeKey_ne_self (objectType att : String) :
    compositeKey objectType [att] ≠ att := by
  intro h
  have := congrArg String.length h
  simp only [compositeKey, List.foldl, String.length_append] at this
  have h1 : ("\x00" : String).length = 1 := rfl
  omega

theorem verifyAgreement_ok_inv (E : Env) (ctx : Ctx) (w : World)
    (assetID owner buyerMSP : String)
    (hok : verifyAgreement E ctx w assetID owner buyerMSP = .ok ()) :
    ∃ o h, ctx.clientID = some owner ∧ ctx.clientMSPID = some o ∧ ctx.peerMSPID = some o ∧
      GetPrivateDataHash E w (o ++ "PrivateCollection") assetID = .ok (some h) ∧
      GetPrivateDataHash E w (buyerMSP ++ "PrivateCollection") assetID = .ok (some h) := by
  cases hcid : ctx.clientID with
  | none => simp [verifyAgreement, hcid] at hok
  | some c =>
  by_cases hc : c = owner
  · subst hc
    rcases getCollectionName_fst ctx with h0 | ⟨o, h1, h2, h3⟩
    · simp [verifyAgreement, hcid, h0, GetPrivateDataHash] at hok
    · simp only [verifyAgreement, hcid, h3, ne_eq, not_true_eq_false, if_false] at hok
      cases ho : GetPrivateDataHash E w (o ++ "PrivateCollection") assetID with
      | error e => simp [ho] at hok
      | ok x =>
      cases x with
      | none => simp [ho] at hok
      | some h₁ =>
      simp only [ho] at hok
      cases hb : GetPrivateDataHash E w (buyerMSP ++ "PrivateCollection") assetID with
      | error e => simp [hb] at hok
      | ok y =>
      cases y with
      | none => simp [hb] at hok
      | some h₂ =>
      simp only [hb] at hok
      by_cases hh : h₁ = h₂
      · subst hh
        exact ⟨o, h₁, rfl, h1, h2, ho, rfl⟩
      · simp [hh] at hok
  · simp [verifyAgreement, hcid, hc] at hok

theorem TransferAsset_ok_inv (E : Env) (ctx : Ctx) (w : World)
    (transMap : String → Option Bytes) (payload : Bytes)
    (input : assetTransferTransientInput)
    (htr : ctx.transient = some transMap) (hpl : transMap "asset_owner" = some payload)
    (hdec : E.unmarshalTransferInput payload = some input)
    (hok : (TransferAsset E ctx w).1 = .ok ()) :
    ∃ asset o h, input.ID ≠ "" ∧ input.BuyerMSP ≠ "" ∧
      ReadAsset E w input.ID = .ok asset ∧
      ctx.clientID = some asset.Owner ∧ ctx.clientMSPID = some o ∧ ctx.peerMSPID = some o ∧
      GetPrivateDataHash E w (o ++ "PrivateCollection") input.ID = .ok (some h) ∧
      GetPrivateDataHash E w (input.BuyerMSP ++ "PrivateCollection") input.ID
        = .ok (some h) ∧
      (TransferAsset E ctx w).2 =
        { ledger :=
            { priv := fun c k =>
                if c = assetCollection ∧ k = compositeKey "transferAgreement" [input.ID]
                then none
                else if c = o ++ "PrivateCollection" ∧ k = input.ID then none
                else if c = assetCollection ∧ k = input.ID then
                  some (E.marshalAsset
                    { asset with Owner := (ReadTransferAgreement w input.ID).1 })
                else w.ledger.priv c k
              pub := w.ledger.pub }
          writes := w.writes ++
            [.putPrivate assetCollection input.ID
               (E.marshalAsset { asset with Owner := (ReadTransferAgreement w input.ID).1 }),
             .delPrivate (o ++ "PrivateCollection") input.ID,
             .delPrivate assetCollection (compositeKey "transferAgreement" [input.ID])] } := by
  simp only [TransferAsset, htr, hpl, hdec] at hok ⊢
  split_ifs at hok ⊢ with hID hB
  cases hasset : ReadAsset E w input.ID with
  | error e => simp [hasset] at hok
  | ok asset =>
  simp only [hasset] at hok ⊢
  cases hver : verifyAgreement E ctx w input.ID asset.Owner input.BuyerMSP with
  | error e => simp [hver] at hok
  | ok u =>
  obtain ⟨o, h, hc, hmsp, hpeer, hown, hbuy⟩ :=
    verifyAgreement_ok_inv E ctx w input.ID asset.Owner input.BuyerMSP hver
  have hcoll := getCollectionName_of_same_org ctx o hmsp hpeer
  have hIDne : input.ID ≠ "" := fun h0 => hID (by rw [h0]; rfl)
  have hBne : input.BuyerMSP ≠ "" := fun h0 => hB (by rw [h0]; rfl)
  simp only [hver, hcoll, PutPrivateData, DelPrivateData, assetCollection_ne_empty,
    privateCollection_ne_empty, hIDne, if_false] at hok ⊢
  cases hck : CreateCompositeKey "transferAgreement" [input.ID] with
  | error e => simp [hck] at hok
  | ok key =>
    obtain rfl := CreateCompositeKey_ok hck
    refine ⟨asset, o, h, hIDne, hBne, ?_, hc, hmsp, hpeer, hown, hbuy, ?_⟩
    · rfl
    · simp

theorem TransferAsset_ok_of (E : Env) (ctx : Ctx) (w : World)
    (transMap : String → Option Bytes) (payload : Bytes)
    (input : assetTransferTransientInput) (asset : Asset) (o : String) (x y : Bytes)
    (buyer : String)
    (htr : ctx.transient = some transMap) (hpl : transMap "asset_owner" = some payload)
    (hdec : E.unmarshalTransferInput payload = some input)
    (hID : input.ID ≠ "") (hBne : input.BuyerMSP ≠ "")
    (hasset : ReadAsset E w input.ID = .ok asset)
    (hc : ctx.clientID = some asset.Owner)
    (hmsp : ctx.clientMSPID = some o) (hpeer : ctx.peerMSPID = some o)
    (hx : w.ledger.priv (o ++ "PrivateCollection") input.ID = some x)
    (hy : w.ledger.priv (input.BuyerMSP ++ "PrivateCollection") input.ID = some y)
    (hxy : E.hash x = E.hash y)
    (hck : CreateCompositeKey "transferAgreement" [input.ID]
      = .ok (compositeKey "transferAgreement" [input.ID]))
    (hrec : w.ledger.priv assetCollection (compositeKey "transferAgreement" [input.ID])
      = some buyer)
    (hjson : E.unmarshalAsset (E.marshalAsset { asset with Owner := buyer })
      = some { asset with Owner := buyer }) :
    (TransferAsset E ctx w).1 = .ok () ∧
    ReadAsset E (World.start (TransferAsset E ctx w).2.ledger) input.ID
      = .ok { asset with Owner := buyer } := by
  have hae := assetCollection_ne_empty
  have hna := privateCollection_ne_assetCollection o
  have hck' := compositeKey_ne_self "transferAgreement" input.ID
  have hver : verifyAgreement E ctx w input.ID asset.Owner input.BuyerMSP = .ok () := by
    simp [verifyAgreement, hc, getCollectionName_of_same_org ctx o hmsp hpeer,
      GetPrivateDataHash, privateCollection_ne_empty, hx, hy, hxy]
  have hrta : ReadTransferAgreement w input.ID = (buyer, none) := by
    simp [ReadTransferAgreement, hck, GetPrivateData, hae, hrec]
  have hT : TransferAsset E ctx w = (.ok (),
      { ledger :=
          { priv := fun c k =>
              if c = assetCollection ∧ k = compositeKey "transferAgreement" [input.ID]
              then none
              else if c = o ++ "PrivateCollection" ∧ k = input.ID then none
              else if c = assetCollection ∧ k = input.ID then
                some (E.marshalAsset { asset with Owner := buyer })
              else w.ledger.priv c k
            pub := w.ledger.pub }
        writes := w.writes ++
          [.putPrivate assetCollection input.ID (E.marshalAsset { asset with Owner := buyer }),
           .delPrivate (o ++ "PrivateCollection") input.ID,
           .delPrivate assetCollection (compositeKey "transferAgreement" [input.ID])] }) := by
    simp [TransferAsset, htr, hpl, hdec, length_ne_zero_of_ne hID, length_ne_zero_of_ne hBne,
      hasset, hver, hrta, PutPrivateData, DelPrivateData, hae, hID,
      getCollectionName_of_same_org ctx o hmsp hpeer, privateCollection_ne_empty, hck]
  rw [hT]
  refine ⟨rfl, ?_⟩
  simp [ReadAsset, GetPrivateData, hae, World.start, hna.symm, hck'.symm, hjson]

/-! ## C21: calls that reach a peer of another org -/

/-- C21 (code at the failing input): `alice` of `Org1MSP` sends `CreateAsset` to a
peer of `Org2MSP`.  `getCollectionName` returns the authorization error, which
`CreateAsset` does not look at: the put of the asset record has been issued
before, and the error returned is the stub's error for the empty collection name.
`DeleteAsset` issues its first delete in the same way, and none of the five
operations returns the authorization error. -/
theorem cross_org_calls_do_not_abort_cleanly :
    getCollectionName Sample.aliceOnOrg2PeerCreates
      = ("", some (.crossOrg "Org1MSP" "Org2MSP")) ∧
    (CreateAsset Sample.env Sample.aliceOnOrg2PeerCreates (World.start Ledger.empty)).1
      = .error (.wrapped "failed to put asset private details" .emptyCollection) ∧
    (CreateAsset Sample.env Sample.aliceOnOrg2PeerCreates (World.start Ledger.empty)).2.writes
      = [.putPrivate assetCollection "asset1" (Sample.sampleMarshalAsset (Sample.asset1 "alice"))] ∧
    (DeleteAsset Sample.env Sample.aliceOnOrg2PeerDeletes (World.start Sample.created)).1
      = .error .emptyCollection ∧
    (DeleteAsset Sample.env Sample.aliceOnOrg2PeerDeletes (World.start Sample.created)).2.writes
      = [.delPrivate assetCollection "asset1"] ∧
    (AgreeToTransfer Sample.env Sample.bobOnOrg1PeerAgrees (World.start Sample.created)).1
      = .error (.wrapped "failed to put asset bid" .emptyCollection) ∧
    (TransferAsset Sample.env Sample.aliceOnOrg2PeerTransfers (World.start Sample.agreed)).1
      = .error (.wrapped "failed transfer verification"
          (.wrapped "failed to hash of appraised value from owners collection"
            .emptyCollection)) ∧
    (DeleteProposal Sample.env Sample.bobOnOrg1PeerWithdraws (World.start Sample.agreed)).1
      = .error .emptyCollection ∧
    (Err.wrapped "failed to put asset private details" .emptyCollection).kind
      ≠ .AuthorizationError := by
  decide

/-! ## C22, C26: what a successful `TransferAsset` leaves -/

/-- C22 (counterexample): `alice` transfers `asset1` naming her own org as the
buyer; the call succeeds and the entry at `asset1` in the buyer's collection,
which is her own, is deleted. -/
theorem TransferAsset_to_own_org_deletes_buyer_entry :
    (TransferAsset Sample.env Sample.aliceTransfersToOrg1 (World.start Sample.created)).1
      = .ok () ∧
    Sample.created.priv ("Org1MSP" ++ "PrivateCollection") "asset1"
      = some (Sample.sampleMarshalPrivateDetails ⟨"asset1", 100⟩) ∧
    (TransferAsset Sample.env Sample.aliceTransfersToOrg1
      (World.start Sample.created)).2.ledger.priv ("Org1MSP" ++ "PrivateCollection") "asset1"
      = none := by
  decide

/-- C22 (amended): when `TransferAsset` succeeds for a caller of org `o` and the
buyer org of the input is not `o`, the entry at the id in the buyer's collection
is present before the call and is the same afterwards. -/
theorem TransferAsset_keeps_buyer_entry (E : Env) (ctx : Ctx) (w : World)
    (transMap : String → Option Bytes) (payload : Bytes)
    (input : assetTransferTransientInput) (o : String)
    (htr : ctx.transient = some transMap) (hpl : transMap "asset_owner" = some payload)
    (hdec : E.unmarshalTransferInput payload = some input)
    (hmsp : ctx.clientMSPID = some o) (hother : input.BuyerMSP ≠ o)
    (hok : (TransferAsset E ctx w).1 = .ok ()) :
    ∃ b, w.ledger.priv (input.BuyerMSP ++ "PrivateCollection") input.ID = some b ∧
      (TransferAsset E ctx w).2.ledger.priv (input.BuyerMSP ++ "PrivateCollection") input.ID
        = some b := by
  obtain ⟨asset, o₁, h, -, -, -, -, h1, -, -, hbuy, hw⟩ :=
    TransferAsset_ok_inv E ctx w transMap payload input htr hpl hdec hok
  have ho : o₁ = o := by rw [hmsp] at h1; exact (Option.some.inj h1).symm
  subst ho
  have hne : input.BuyerMSP ++ "PrivateCollection" ≠ o₁ ++ "PrivateCollection" :=
    fun h0 => hother (append_right_cancel h0)
  have hna := privateCollection_ne_assetCollection input.BuyerMSP
  simp only [GetPrivateDataHash, privateCollection_ne_empty, if_false] at hbuy
  cases hb : w.ledger.priv (input.BuyerMSP ++ "PrivateCollection") input.ID with
  | none => simp [hb] at hbuy
  | some b =>
    refine ⟨b, rfl, ?_⟩
    rw [hw]
    simp [hne, hna, hb]

/-- Witness of C22 (amended): `alice` transfers `asset1` to `Org2MSP`. -/
theorem TransferAsset_keeps_buyer_entry_witness :
    ∃ b, Sample.agreed.priv ("Org2MSP" ++ "PrivateCollection") "asset1" = some b ∧
      (TransferAsset Sample.env Sample.aliceTransfersToOrg2
        (World.start Sample.agreed)).2.ledger.priv ("Org2MSP" ++ "PrivateCollection") "asset1"
        = some b :=
  TransferAsset_keeps_buyer_entry Sample.env Sample.aliceTransfersToOrg2
    (World.start Sample.agreed) (Sample.transientOf "asset_owner" Sample.toOrg2) Sample.toOrg2
    ⟨"asset1", "Org2MSP"⟩ "Org1MSP" rfl (by decide) (by decide) rfl (by decide) (by decide)

/-- C26: when `TransferAsset` succeeds on an asset record that `json.Unmarshal`
reads back from what `json.Marshal` writes for it with the new owner, the record
at the id afterwards has the type, id, color and size it had before, and every
key of the shared collection other than the id and the `transferAgreement` key
of the id holds what it held. -/
theorem TransferAsset_frame (E : Env) (ctx : Ctx) (w : World)
    (transMap : String → Option Bytes) (payload : Bytes)
    (input : assetTransferTransientInput) (asset : Asset)
    (htr : ctx.transient = some transMap) (hpl : transMap "asset_owner" = some payload)
    (hdec : E.unmarshalTransferInput payload = some input)
    (hasset : ReadAsset E w input.ID = .ok asset)
    (hjson : E.unmarshalAsset
        (E.marshalAsset { asset with Owner := (ReadTransferAgreement w input.ID).1 })
      = some { asset with Owner := (ReadTransferAgreement w input.ID).1 })
    (hok : (TransferAsset E ctx w).1 = .ok ()) :
    (∃ asset', ReadAsset E (World.start (TransferAsset E ctx w).2.ledger) input.ID
        = .ok asset' ∧
      asset'.Type_ = asset.Type_ ∧ asset'.ID = asset.ID ∧ asset'.Color = asset.Color ∧
      asset'.Size = asset.Size) ∧
    (∀ key, key ≠ input.ID → key ≠ compositeKey "transferAgreement" [input.ID] →
      (TransferAsset E ctx w).2.ledger.priv assetCollection key
        = w.ledger.priv assetCollection key) := by
  obtain ⟨asset₁, o, h, -, -, hread, -, -, -, -, -, hw⟩ :=
    TransferAsset_ok_inv E ctx w transMap payload input htr hpl hdec hok
  have ha : asset₁ = asset := by rw [hasset] at hread; exact (Except.ok.inj hread).symm
  subst ha
  have hna := privateCollection_ne_assetCollection o
  have hck := compositeKey_ne_self "transferAgreement" input.ID
  rw [hw]
  refine ⟨⟨{ asset₁ with Owner := (ReadTransferAgreement w input.ID).1 }, ?_, rfl, rfl, rfl,
    rfl⟩, ?_⟩
  · simp [ReadAsset, GetPrivateData, assetCollection_ne_empty, World.start, hna.symm,
      hck.symm, hjson]
  · intro key h1 h2
    simp [h1, h2]

/-- Witness of C26: `alice` transfers `asset1` to `Org2MSP`. -/
theorem TransferAsset_frame_witness :
    (TransferAsset Sample.env Sample.aliceTransfersToOrg2 (World.start Sample.agreed)).1
      = .ok () ∧
    ∃ asset', ReadAsset Sample.env
        (World.start (TransferAsset Sample.env Sample.aliceTransfersToOrg2
          (World.start Sample.agreed)).2.ledger) "asset1" = .ok asset' ∧
      asset'.Type_ = "asset" ∧ asset'.ID = "asset1" ∧ asset'.Color = "blue" ∧
      asset'.Size = 10 :=
  ⟨by decide,
    (TransferAsset_frame Sample.env Sample.aliceTransfersToOrg2 (World.start Sample.agreed)
      (Sample.transientOf "asset_owner" Sample.toOrg2) Sample.toOrg2 ⟨"asset1", "Org2MSP"⟩
      (Sample.asset1 "alice") rfl (by decide) (by decide) (by decide) (by decide)
      (by decide)).1⟩

/-! ## C23: create, agree, transfer -/

/-- C23 (counterexample): `alice` creates `asset1` with the value 100 and `bob`
agrees with a payload that decodes to `asset1` and 100 but is not the encoding
`CreateAsset` stored; the hashes differ and the transfer fails with the mismatch
error.  With the matching payload, the transfer sent to a peer of another org
fails as well. -/
theorem TransferAsset_fails_on_reencoded_payload :
    (CreateAsset Sample.env Sample.aliceCreates (World.start Ledger.empty)).1 = .ok () ∧
    Sample.env.unmarshalPrivateDetails Sample.value100Reordered = some ⟨"asset1", 100⟩ ∧
    (AgreeToTransfer Sample.env Sample.bobAgrees100Reordered (World.start Sample.created)).1
      = .ok () ∧
    (TransferAsset Sample.env Sample.aliceTransfersToOrg2
        (World.start Sample.agreedReordered)).1
      = .error (.wrapped "failed transfer verification"
          (.hashMismatch (Sample.sampleMarshalPrivateDetails ⟨"asset1", 100⟩)
            Sample.value100Reordered)) ∧
    ReadAsset Sample.env (World.start Sample.agreedReordered) "asset1"
      = .ok (Sample.asset1 "alice") ∧
    (TransferAsset Sample.env Sample.aliceOnOrg2PeerTransfers (World.start Sample.agreed)).1
      = .error (.wrapped "failed transfer verification"
          (.wrapped "failed to hash of appraised value from owners collection"
            .emptyCollection)) := by
  decide

/-- C23 (amended): after a successful `CreateAsset` by the caller `owner` of org
`a`, and a successful `AgreeToTransfer` by the caller `buyer` of another org `B`
whose payload is byte for byte what `json.Marshal` wrote for the id and the value
of the created asset, `TransferAsset` by `owner` on a peer of org `a` with the
buyer org `B` succeeds and `ReadAsset` then returns the asset with the owner
`buyer`; `json.Unmarshal` is assumed to read back the two asset records. -/
theorem create_agree_transfer (E : Env) (creatorCtx buyerCtx ownerCtx : Ctx) (w : World)
    (createMap : String → Option Bytes) (createPayload : Bytes) (input : assetTransientInput)
    (buyerMap : String → Option Bytes) (b : Bytes)
    (ownerMap : String → Option Bytes) (transferPayload : Bytes)
    (a B owner buyer : String)
    (htrA : creatorCtx.transient = some createMap)
    (hplA : createMap "asset_properties" = some createPayload)
    (hdecA : E.unmarshalAssetInput createPayload = some input)
    (hcA : creatorCtx.clientID = some owner) (hA : creatorCtx.clientMSPID = some a)
    (hokA : (CreateAsset E creatorCtx w).1 = .ok ())
    (htrB : buyerCtx.transient = some buyerMap) (hplB : buyerMap "asset_value" = some b)
    (hb : b = E.marshalPrivateDetails ⟨input.ID, input.AppraisedValue⟩)
    (hdecB : E.unmarshalPrivateDetails b = some ⟨input.ID, input.AppraisedValue⟩)
    (hcB : buyerCtx.clientID = some buyer) (hB : buyerCtx.clientMSPID = some B)
    (hAB : B ≠ a) (hBne : B ≠ "")
    (hokB : (AgreeToTransfer E buyerCtx
      (World.start (CreateAsset E creatorCtx w).2.ledger)).1 = .ok ())
    (htrT : ownerCtx.transient = some ownerMap)
    (hplT : ownerMap "asset_owner" = some transferPayload)
    (hdecT : E.unmarshalTransferInput transferPayload = some ⟨input.ID, B⟩)
    (hcT : ownerCtx.clientID = some owner)
    (hmspT : ownerCtx.clientMSPID = some a) (hpeerT : ownerCtx.peerMSPID = some a)
    (hjsonA : E.unmarshalAsset
        (E.marshalAsset ⟨input.Type_, input.ID, input.Color, input.Size, owner⟩)
      = some ⟨input.Type_, input.ID, input.Color, input.Size, owner⟩)
    (hjsonB : E.unmarshalAsset
        (E.marshalAsset ⟨input.Type_, input.ID, input.Color, input.Size, buyer⟩)
      = some ⟨input.Type_, input.ID, input.Color, input.Size, buyer⟩) :
    (TransferAsset E ownerCtx
      (World.start (AgreeToTransfer E buyerCtx
        (World.start (CreateAsset E creatorCtx w).2.ledger)).2.ledger)).1 = .ok () ∧
    ReadAsset E
      (World.start (TransferAsset E ownerCtx
        (World.start (AgreeToTransfer E buyerCtx
          (World.start (CreateAsset E creatorCtx w).2.ledger)).2.ledger)).2.ledger) input.ID
      = .ok ⟨input.Type_, input.ID, input.Color, input.Size, buyer⟩ := by
  obtain ⟨c₁, o₁, w1, w2, hc₁, ho₁, -, -, hp1, hp2, hw⟩ :=
    CreateAsset_ok_inv E creatorCtx w createMap createPayload input htrA hplA hdecA hokA
  have e1 : c₁ = owner := by rw [hcA] at hc₁; exact (Option.some.inj hc₁).symm
  have e2 : o₁ = a := by rw [hA] at ho₁; exact (Option.some.inj ho₁).symm
  subst e1 e2
  obtain ⟨c₂, o₂, w3, w4, hc₂, ho₂, -, hp3, hck, hp4, hw'⟩ :=
    AgreeToTransfer_ok_inv E buyerCtx (World.start (CreateAsset E creatorCtx w).2.ledger)
      buyerMap b ⟨input.ID, input.AppraisedValue⟩ htrB hplB hdecB hokB
  have e3 : c₂ = buyer := by rw [hcB] at hc₂; exact (Option.some.inj hc₂).symm
  have e4 : o₂ = B := by rw [hB] at ho₂; exact (Option.some.inj ho₂).symm
  subst e3 e4
  have hae := assetCollection_ne_empty
  have hne₁ := privateCollection_ne_empty o₁
  have hne₂ := privateCollection_ne_empty o₂
  have hna₁ := privateCollection_ne_assetCollection o₁
  have hna₂ := privateCollection_ne_assetCollection o₂
  have hcoll : o₂ ++ "PrivateCollection" ≠ o₁ ++ "PrivateCollection" :=
    fun h => hAB (append_right_cancel h)
  have hck' := compositeKey_ne_self "transferAgreement" input.ID
  have hcke := compositeKey_ne_empty "transferAgreement" input.ID
  have hID : input.ID ≠ "" := by
    intro h0
    simp [PutPrivateData, hae, h0] at hp1
  have hIDlen := length_ne_zero_of_ne hID
  have hBlen := length_ne_zero_of_ne hBne
  simp only [PutPrivateData, hae, hne₁, hID, if_false] at hp1
  cases hp1
  simp only [PutPrivateData, hae, hne₁, hID, if_false] at hp2
  cases hp2
  rw [hw'] at *
  rw [hw] at hp3
  simp only [PutPrivateData, hne₂, hID, if_false, World.start] at hp3
  cases hp3
  simp only [PutPrivateData, hae, hcke, if_false] at hp4
  cases hp4
  exact TransferAsset_ok_of E ownerCtx _ ownerMap transferPayload ⟨input.ID, o₂⟩
    ⟨input.Type_, input.ID, input.Color, input.Size, c₁⟩ o₁
    (E.marshalPrivateDetails ⟨input.ID, input.AppraisedValue⟩) b c₂ htrT hplT hdecT hID hBne
    (by simp [ReadAsset, GetPrivateData, hae, World.start, hck'.symm, hna₁.symm, hna₂.symm,
      hjsonA])
    hcT hmspT hpeerT
    (by simp [World.start, hna₁, hcoll.symm])
    (by simp [World.start, hna₂])
    (by rw [hb]) hck
    (by simp [World.start])
    hjsonB

/-- Witness of C23 (amended): `alice` creates, `bob` agrees with the bytes
`json.Marshal` writes, `alice` transfers to `Org2MSP`. -/
theorem create_agree_transfer_witness :
    (TransferAsset Sample.env Sample.aliceTransfersToOrg2
      (World.start (AgreeToTransfer Sample.env Sample.bobAgrees100
        (World.start (CreateAsset Sample.env Sample.aliceCreates
          (World.start Ledger.empty)).2.ledger)).2.ledger)).1 = .ok () ∧
    ReadAsset Sample.env
      (World.start (TransferAsset Sample.env Sample.aliceTransfersToOrg2
        (World.start (AgreeToTransfer Sample.env Sample.bobAgrees100
          (World.start (CreateAsset Sample.env Sample.aliceCreates
            (World.start Ledger.empty)).2.ledger)).2.ledger)).2.ledger) "asset1"
      = .ok ⟨"asset", "asset1", "blue", 10, "bob"⟩ :=
  create_agree_transfer Sample.env Sample.aliceCreates Sample.bobAgrees100
    Sample.aliceTransfersToOrg2 (World.start Ledger.empty)
    (Sample.transientOf "asset_properties" Sample.assetProperties) Sample.assetProperties
    ⟨"asset", "asset1", "blue", 10, 100⟩
    (Sample.transientOf "asset_value" Sample.value100) Sample.value100
    (Sample.transientOf "asset_owner" Sample.toOrg2) Sample.toOrg2
    "Org1MSP" "Org2MSP" "alice" "bob"
    rfl (by decide) (by decide) rfl rfl (by decide)
    rfl (by decide) (by decide) (by decide) rfl rfl (by decide) (by decide) (by decide)
    rfl (by decide) (by decide) rfl rfl rfl (by decide) (by decide)

/-! ## C24: the two reads -/

/-- C24 (counterexample): `ReadAssetPrivateDetails` called with the empty
collection name on the ledger where `alice` created `asset1`.  Nothing is stored
under that name, and the call returns neither details nor the not-found error
nor the decode error: it returns the stub's error for the empty collection
name. -/
theorem ReadAssetPrivateDetails_empty_collection :
    (World.start Sample.created).ledger.priv "" "asset1" = none ∧
    ReadAssetPrivateDetails Sample.env (World.start Sample.created) "" "asset1"
      = .error (.wrapped "failed to read from asset details" .emptyCollection) ∧
    (Err.wrapped "failed to read from asset details" .emptyCollection).kind
      = .SubstrateError ∧
    ¬ ∃ e, ReadAssetPrivateDetails Sample.env (World.start Sample.created) "" "asset1"
        = .error e ∧ e.kind = .NotFoundError := by
  refine ⟨by decide, by decide, rfl, ?_⟩
  rintro ⟨e, he, hk⟩
  have h : ReadAssetPrivateDetails Sample.env (World.start Sample.created) "" "asset1"
      = .error (.wrapped "failed to read from asset details" .emptyCollection) := by decide
  rw [h] at he
  cases he
  simp [Err.kind] at hk

/-- C24 (amended): `ReadAsset` returns an asset exactly when the shared collection
holds a value at the id that decodes to it, fails with the not-found error when
nothing is stored and with the decode error when the stored bytes do not decode;
`ReadAssetPrivateDetails` has the same three outcomes on a collection whose name
is not empty.  Both are functions of the world that return a result only: they
leave the world as it is. -/
theorem Read_outcomes (E : Env) (w : World) (collection assetID : String)
    (hcoll : collection ≠ "") :
    ((∀ asset, ReadAsset E w assetID = .ok asset ↔
        ∃ v, w.ledger.priv assetCollection assetID = some v ∧
          E.unmarshalAsset v = some asset) ∧
      (w.ledger.priv assetCollection assetID = none →
        ∃ e, ReadAsset E w assetID = .error e ∧ e.kind = .NotFoundError) ∧
      (∀ v, w.ledger.priv assetCollection assetID = some v → E.unmarshalAsset v = none →
        ∃ e, ReadAsset E w assetID = .error e ∧ e.kind = .DecodeError)) ∧
    ((∀ details, ReadAssetPrivateDetails E w collection assetID = .ok details ↔
        ∃ v, w.ledger.priv collection assetID = some v ∧
          E.unmarshalPrivateDetails v = some details) ∧
      (w.ledger.priv collection assetID = none →
        ∃ e, ReadAssetPrivateDetails E w collection assetID = .error e ∧
          e.kind = .NotFoundError) ∧
      (∀ v, w.ledger.priv collection assetID = some v → E.unmarshalPrivateDetails v = none →
        ∃ e, ReadAssetPrivateDetails E w collection assetID = .error e ∧
          e.kind = .DecodeError)) := by
  have hae := assetCollection_ne_empty
  refine ⟨⟨?_, ?_, ?_⟩, ⟨?_, ?_, ?_⟩⟩
  · intro asset
    simp only [ReadAsset, GetPrivateData, hae, if_false]
    cases h : w.ledger.priv assetCollection assetID with
    | none => simp
    | some v => cases h' : E.unmarshalAsset v <;> simp [h']
  · intro h; simp [ReadAsset, GetPrivateData, hae, h, Err.kind]
  · intro v h h'; simp [ReadAsset, GetPrivateData, hae, h, h', Err.kind]
  · intro details
    simp only [ReadAssetPrivateDetails, GetPrivateData, hcoll, if_false]
    cases h : w.ledger.priv collection assetID with
    | none => simp
    | some v => cases h' : E.unmarshalPrivateDetails v <;> simp [h']
  · intro h; simp [ReadAssetPrivateDetails, GetPrivateData, hcoll, h, Err.kind]
  · intro v h h'; simp [ReadAssetPrivateDetails, GetPrivateData, hcoll, h, h', Err.kind]

/-- Witness of C24 (amended): the two reads after `alice` created `asset1`. -/
theorem Read_outcomes_witness :
    ReadAsset Sample.env (World.start Sample.created) "asset1" = .ok (Sample.asset1 "alice") ∧
    ReadAssetPrivateDetails Sample.env (World.start Sample.created) "Org1MSPPrivateCollection"
      "asset1" = .ok ⟨"asset1", 100⟩ :=
  ⟨((Read_outcomes Sample.env (World.start Sample.created) "Org1MSPPrivateCollection" "asset1"
      (by decide)).1.1 (Sample.asset1 "alice")).2
      ⟨Sample.sampleMarshalAsset (Sample.asset1 "alice"), by decide, by decide⟩,
    ((Read_outcomes Sample.env (World.start Sample.created) "Org1MSPPrivateCollection" "asset1"
      (by decide)).2.1 ⟨"asset1", 100⟩).2 ⟨Sample.value100, by decide, by decide⟩⟩

/-! ## C25: `QueryAssetByOwner` -/

/-- C25 (code at the failing input): for the owner `Alice`, `QueryAssetByOwner`
returns what `QueryAssets` returns for the selector of `alice`, which is not the
selector of the owner as passed; the owners `Alice` and `alice` give the same
query. -/
theorem QueryAssetByOwner_lowercases_owner (E : Env) (engine : QueryEngine) (w : World) :
    QueryAssetByOwner E engine w "Alice" = QueryAssets E engine w (ownerSelector "alice") ∧
    ownerSelector "alice" ≠ ownerSelector "Alice" ∧
    QueryAssetByOwner E engine w "Alice" = QueryAssetByOwner E engine w "alice" := by
  refine ⟨?_, by decide, ?_⟩
  · have h : ToLower "Alice" = "alice" := by decide
    simp [QueryAssetByOwner, QueryAssets, h]
  · have h : ToLower "Alice" = "alice" := by decide
    have h' : ToLower "alice" = "alice" := by decide
    simp [QueryAssetByOwner, h, h']

/-! ## C27, C28: collection names -/

/-- C27: in both variants, the collection name `getCollectionName` resolves for a
caller of org `B` (in `private_asset_transfer.go`: on a peer of org `B`) is the
name `verifyAgreement` builds from the buyer org `B`: the verifier, called by the
owner, succeeds exactly when the hash at the id in the owner's resolved
collection and the hash at the id in the buyer's resolved collection exist and
are equal. -/
theorem verify_reads_callers_collection (E : Env) (ownerCtx buyerCtx : Ctx) (w : World)
    (assetID owner o B : String)
    (hc : ownerCtx.clientID = some owner) (ho : ownerCtx.clientMSPID = some o)
    (hB : buyerCtx.clientMSPID = some B) :
    (ownerCtx.peerMSPID = some o → buyerCtx.peerMSPID = some B →
      getCollectionName buyerCtx = (B ++ "PrivateCollection", none) ∧
      (verifyAgreement E ownerCtx w assetID owner B = .ok () ↔
        ∃ h, GetPrivateDataHash E w (getCollectionName ownerCtx).1 assetID = .ok (some h) ∧
          GetPrivateDataHash E w (getCollectionName buyerCtx).1 assetID = .ok (some h))) ∧
    (Variant.getCollectionName buyerCtx = (B ++ "DetailsCollection", none) ∧
      (Variant.verifyAgreement E ownerCtx w assetID owner B = .ok () ↔
        ∃ h, GetPrivateDataHash E w (Variant.getCollectionName ownerCtx).1 assetID
            = .ok (some h) ∧
          GetPrivateDataHash E w (Variant.getCollectionName buyerCtx).1 assetID
            = .ok (some h))) := by
  refine ⟨fun hpo hpB => ⟨getCollectionName_of_same_org buyerCtx B hB hpB, ?_⟩, ⟨?_, ?_⟩⟩
  · simp only [verifyAgreement, hc, getCollectionName_of_same_org ownerCtx o ho hpo,
      getCollectionName_of_same_org buyerCtx B hB hpB, GetPrivateDataHash,
      privateCollection_ne_empty, if_false, ne_eq, not_true_eq_false]
    cases w.ledger.priv (o ++ "PrivateCollection") assetID <;>
      cases w.ledger.priv (B ++ "PrivateCollection") assetID <;> simp
    rename_i v₁ v₂
    by_cases hh : E.hash v₁ = E.hash v₂
    · simp [hh]
    · simp [hh, Ne.symm hh]
  · simp [Variant.getCollectionName, hB]
  · have h1 : (Variant.getCollectionName ownerCtx).1 = o ++ "DetailsCollection" := by
      simp [Variant.getCollectionName, ho]
    have h2 : (Variant.getCollectionName buyerCtx).1 = B ++ "DetailsCollection" := by
      simp [Variant.getCollectionName, hB]
    simp only [Variant.verifyAgreement, hc, h1, h2, GetPrivateDataHash,
      detailsCollection_ne_empty, if_false, ne_eq, not_true_eq_false]
    cases w.ledger.priv (o ++ "DetailsCollection") assetID <;>
      cases w.ledger.priv (B ++ "DetailsCollection") assetID <;> simp
    rename_i v₁ v₂
    by_cases hh : E.hash v₁ = E.hash v₂
    · simp [hh]
    · simp [hh, Ne.symm hh]

/-- Witness of C27: `alice` verifies the agreement of `bob`. -/
theorem verify_reads_callers_collection_witness :
    getCollectionName Sample.bobAgrees100 = ("Org2MSP" ++ "PrivateCollection", none) ∧
    (verifyAgreement Sample.env Sample.aliceTransfersToOrg2 (World.start Sample.agreed)
        "asset1" "alice" "Org2MSP" = .ok () ↔
      ∃ h, GetPrivateDataHash Sample.env (World.start Sample.agreed)
            (getCollectionName Sample.aliceTransfersToOrg2).1 "asset1" = .ok (some h) ∧
        GetPrivateDataHash Sample.env (World.start Sample.agreed)
            (getCollectionName Sample.bobAgrees100).1 "asset1" = .ok (some h)) :=
  (verify_reads_callers_collection Sample.env Sample.aliceTransfersToOrg2 Sample.bobAgrees100
    (World.start Sample.agreed) "asset1" "alice" "Org1MSP" "Org2MSP" rfl rfl rfl).1 rfl rfl

/-- C28: in both variants, two callers whose resolved collection names are equal
belong to the same org. -/
theorem collection_names_injective (ctx₁ ctx₂ : Ctx) (A B : String)
    (hA : ctx₁.clientMSPID = some A) (hB : ctx₂.clientMSPID = some B) :
    (ctx₁.peerMSPID = some A → ctx₂.peerMSPID = some B →
      (getCollectionName ctx₁).1 = (getCollectionName ctx₂).1 → A = B) ∧
    ((Variant.getCollectionName ctx₁).1 = (Variant.getCollectionName ctx₂).1 → A = B) := by
  refine ⟨fun hpA hpB h => ?_, fun h => ?_⟩
  · rw [getCollectionName_of_same_org ctx₁ A hA hpA,
      getCollectionName_of_same_org ctx₂ B hB hpB] at h
    exact append_right_cancel h
  · simp only [Variant.getCollectionName, hA, hB] at h
    exact append_right_cancel h

/-- Witness of C28: `alice` and `bob` resolve different collections. -/
theorem collection_names_injective_witness :
    (getCollectionName Sample.aliceCreates).1 ≠ (getCollectionName Sample.bobAgrees100).1 :=
  fun h =>
    absurd ((collection_names_injective Sample.aliceCreates Sample.bobAgrees100
      "Org1MSP" "Org2MSP" rfl rfl).1 rfl rfl h) (by decide)

/-! ## C29, C30: who can verify and who receives -/

/-- C29 (counterexample): `alice` owns `asset1` and her org's collection holds a
value at `asset1`, but her call reaches a peer of `Org2MSP`: `verifyAgreement`
with her own org as the buyer fails. -/
theorem verifyAgreement_self_on_foreign_peer :
    ReadAsset Sample.env (World.start Sample.created) "asset1" = .ok (Sample.asset1 "alice") ∧
    Sample.aliceOnOrg2PeerTransfers.clientID = some "alice" ∧
    Sample.aliceOnOrg2PeerTransfers.clientMSPID = some "Org1MSP" ∧
    Sample.created.priv ("Org1MSP" ++ "PrivateCollection") "asset1"
      = some (Sample.sampleMarshalPrivateDetails ⟨"asset1", 100⟩) ∧
    verifyAgreement Sample.env Sample.aliceOnOrg2PeerTransfers (World.start Sample.created)
      "asset1" "alice" "Org1MSP"
      = .error (.wrapped "failed to hash of appraised value from owners collection"
          .emptyCollection) := by
  decide

/-- C29 (amended): on a peer of the caller's own org `o`, when the caller is the
recorded owner and the collection of `o` holds a value at the id,
`verifyAgreement` with the buyer org `o` succeeds; no other commitment is
looked at. -/
theorem verifyAgreement_self (E : Env) (ctx : Ctx) (w : World)
    (assetID owner o : String) (v : Bytes)
    (hc : ctx.clientID = some owner)
    (hmsp : ctx.clientMSPID = some o) (hpeer : ctx.peerMSPID = some o)
    (hval : w.ledger.priv (o ++ "PrivateCollection") assetID = some v) :
    verifyAgreement E ctx w assetID owner o = .ok () := by
  simp [verifyAgreement, hc, getCollectionName_of_same_org ctx o hmsp hpeer, GetPrivateDataHash,
    privateCollection_ne_empty, hval]

/-- Witness of C29 (amended): `alice` verifies against her own org right after
creating `asset1`. -/
theorem verifyAgreement_self_witness :
    verifyAgreement Sample.env Sample.aliceTransfersToOrg1 (World.start Sample.created)
      "asset1" "alice" "Org1MSP" = .ok () :=
  verifyAgreement_self Sample.env Sample.aliceTransfersToOrg1 (World.start Sample.created)
    "asset1" "alice" "Org1MSP" (Sample.sampleMarshalPrivateDetails ⟨"asset1", 100⟩)
    rfl rfl rfl (by decide)

/-- C30: from the empty ledger, `alice` creates `asset1` with the value 100, `bob`
of `Org2MSP` agrees to 100 and then `carol` of `Org3MSP` agrees to 90.  In the
reached state `verifyAgreement` with the buyer org `Org2MSP` succeeds, the
commitment of `Org3MSP` differs from the owner's, and `TransferAsset` by `alice`
with the buyer org `Org2MSP` succeeds and leaves `asset1` owned by `carol`. -/
theorem TransferAsset_gives_asset_to_unverified_org :
    runCalls Sample.env
        [(.CreateAsset, Sample.aliceCreates), (.AgreeToTransfer, Sample.bobAgrees100),
         (.AgreeToTransfer, Sample.carolAgrees90)] Ledger.empty = Sample.outbid ∧
    verifyAgreement Sample.env Sample.aliceTransfersToOrg2 (World.start Sample.outbid)
      "asset1" "alice" "Org2MSP" = .ok () ∧
    GetPrivateDataHash Sample.env (World.start Sample.outbid) "Org3MSPPrivateCollection" "asset1"
      = .ok (some Sample.value90) ∧
    GetPrivateDataHash Sample.env (World.start Sample.outbid) "Org1MSPPrivateCollection" "asset1"
      = .ok (some Sample.value100) ∧
    (TransferAsset Sample.env Sample.aliceTransfersToOrg2 (World.start Sample.outbid)).1
      = .ok () ∧
    ReadAsset Sample.env
      (World.start (invoke Sample.env Sample.outbid (.TransferAsset, Sample.aliceTransfersToOrg2)))
      "asset1" = .ok (Sample.asset1 "carol") := by
  refine ⟨rfl, ?_, ?_, ?_, ?_, ?_⟩ <;> decide

end PrivateAssetTransfer
